import Mathlib

/-!
RenderThread: a shallow embedding of `src/RenderThread.cpp`.

The file embeds the background renderer of the exposure-stack viewer:

* the producer-facing setters (`setGamma`, `setExposureThreshold`,
  `setExposureRelativeEV`, `calculateWB`, `setImageViewport`) as functions on the
  fields of `RenderThread`, each paired with the answer to "was
  `condition.wakeOne()` called?";
* `doRender` as a row-by-row step, and `run` as a small-step machine whose steps
  interleave with producer events (setters, the destructor, a late wake-up).

Conventions.  C++ `int` values are integers; an `int` operation is followed by
`wrapInt` (two's complement wrap to 32 bits), which is the identity whenever the
exact result is representable.  `unsigned int` values are naturals below `2^32`;
conversions to `unsigned int` are `toUInt`.  The collaborator `ExposureStack` is a
parameter: a state type `ES` with the member functions the file calls.  Of the
floating-point expression in `setGamma` only `std::pow` and the division `1.0f / g`
round; the values `std::pow` returns are a parameter of the embedded `setGamma`.
-/

namespace RenderThread

/-! ## Machine integers -/

/-- Two's complement wrap of an exact integer to the range of a 32-bit `int`. -/
def wrapInt (z : Int) : Int := (z + 2147483648) % 4294967296 - 2147483648

/-- Conversion of an integer to `unsigned int` (reduction modulo `2^32`). -/
def toUInt (z : Int) : Nat := (z % 4294967296).toNat

/-- Subtraction of two `unsigned int` values. -/
def usub (a b : Nat) : Nat := (a + 4294967296 - b % 4294967296) % 4294967296

/-- Representable as a 32-bit `int`. -/
def IsInt (z : Int) : Prop := -2147483648 ≤ z ∧ z < 2147483648

instance (z : Int) : Decidable (IsInt z) := by
  unfold IsInt; infer_instance

/-! ## The collaborator -/

/-- Member functions of `ExposureStack` that `RenderThread.cpp` calls, over a
collaborator state `ES`; `D` is the type of `double` values.  The class itself is
declared outside this file; result types follow its use here (`getWidth` and
`getHeight` are C++ integers, `rgb` yields three doubles). -/
structure ExposureStack (ES D : Type) where
  getWidth : ES → Int
  getHeight : ES → Int
  setThreshold : ES → Int → Int → ES
  setRelativeExposure : ES → Int → D → ES
  calculateWB : ES → Int → Int → Nat → Nat → ES
  setScale : ES → Int → ES
  getWBGR : ES → D
  getWBBR : ES → D
  rgb : ES → Nat → Nat → ℚ × ℚ × ℚ

/-! ## Fields of `RenderThread` -/

/-- Data members of `RenderThread` shared between the producers and the render
loop.  `gamma` is the 65536-entry table, indexed by an `int`; an index outside
`[0, 65536)` reads whatever the function holds there. -/
structure State (ES : Type) where
  restart : Bool
  abort : Bool
  images : ES
  minx : Int
  miny : Int
  maxx : Int
  maxy : Int
  scale : Int
  gamma : Int → Int

/-- Outcome of a setter call: the fields afterwards and whether the call executed
`condition.wakeOne()`. -/
structure Called (ES : Type) where
  state : State ES
  wake : Bool

/-! ## `setGamma` -/

/-- The table entry `(int)std::floor(65536.0f * p) >> 8`, where `p` is the value
that `std::pow(i / 65536.0f, g)` returned.  The product with `65536.0f` is a scaling
by a power of two and `std::floor` is exact, so only `p` carries floating-point
rounding.  The entry is defined over any ordered field with a floor: the rationals
for a binary32 value, the reals for the exact power. -/
def gammaEntry {α : Type} [LinearOrderedField α] [FloorRing α] (p : α) : Int :=
  wrapInt ⌊65536 * p⌋ >>> (8 : Nat)

/-- Lines 21-27.  `pw i` stands for the value `std::pow(i / 65536.0f, 1.0f / g)`
that the platform's single-precision `pow` computes for level `i`. -/
def setGamma {ES α : Type} [LinearOrderedField α] [FloorRing α] (pw : Int → α)
    (s : State ES) : State ES :=
  { s with gamma := fun i => if 0 ≤ i ∧ i < 65536 then gammaEntry (pw i) else s.gamma i }

/-! ## Exposure setters -/

/-- The 16-bit threshold `((th + 1) << 8) - 1` of line 32. -/
def threshold16 (th : Int) : Int := wrapInt (wrapInt (wrapInt (th + 1) * 256) - 1)

/-- Lines 30-36. -/
def setExposureThreshold {ES D : Type} (X : ExposureStack ES D) (i th : Int)
    (s : State ES) : Called ES :=
  { state := { s with images := X.setThreshold s.images i (threshold16 th), restart := true }
    wake := true }

/-- Lines 39-45. -/
def setExposureRelativeEV {ES D : Type} (X : ExposureStack ES D) (i : Int) (re : D)
    (s : State ES) : Called ES :=
  { state := { s with images := X.setRelativeExposure s.images i re, restart := true }
    wake := true }

/-! ## `calculateWB` -/

/-- Lines 50 and 51: `dim - c > 2*radius ? 2*radius : dim - c`, stored in an
`unsigned int`.  The operands are taken as `int`; for `0 ≤ c ≤ dim` and
`radius ≥ 0` the comparison and the result are the same in `unsigned int`. -/
def wbExtent (dim c radius : Int) : Nat :=
  toUInt (if wrapInt (dim - c) > wrapInt (2 * radius) then wrapInt (2 * radius)
          else wrapInt (dim - c))

/-- Lines 52 and 53: `c > radius ? c - radius : 0`. -/
def wbOrigin (c radius : Int) : Int := if c > radius then wrapInt (c - radius) else 0

/-- The rectangle `(x, y, w, h)` that line 54 hands to the collaborator, for an
image of `W` by `H` pixels. -/
def wbRect (W H x y radius : Int) : Int × Int × Nat × Nat :=
  (wbOrigin x radius, wbOrigin y radius, wbExtent W x radius, wbExtent H y radius)

/-- Outcome of `calculateWB`: a setter outcome and the arguments of the emitted
`whiteBalanceChanged` signal. -/
structure CalledWB (ES D : Type) extends Called ES where
  gains : D × D

/-- Lines 48-59. -/
def calculateWB {ES D : Type} (X : ExposureStack ES D) (x y radius : Int)
    (s : State ES) : CalledWB ES D :=
  let r := wbRect (X.getWidth s.images) (X.getHeight s.images) x y radius
  let es := X.calculateWB s.images r.1 r.2.1 r.2.2.1 r.2.2.2
  { state := { s with images := es, restart := true }
    gains := (X.getWBGR es, X.getWBBR es)
    wake := true }

/-! ## `setImageViewport` -/

/-- Lines 62-76.  The test `if (restart)` of line 74 reads the flag after the
fields were updated. -/
def setImageViewport {ES : Type} (x y w h newScale : Int) (s : State ES) : Called ES :=
  let s1 : State ES := if newScale ≠ s.scale then { s with restart := true, scale := newScale } else s
  let s2 : State ES := { s1 with minx := x, miny := y, maxx := wrapInt (x + w), maxy := wrapInt (y + h) }
  { state := s2, wake := s2.restart }

/-! ## Pixel buffers -/

/-- A `QImage` as the renderer uses it: the two dimensions given to the
constructor and, for every position, the pixel stored there (`none` while the
position has not been written since the buffer was created). -/
structure QImage where
  width : Int
  height : Int
  pix : Nat → Nat → Option Nat

/-- The buffer created by `QImage(width, height, QImage::Format_RGB32)`. -/
def QImage.create (width height : Int) : QImage :=
  { width := width, height := height, pix := fun _ _ => none }

/-- Store `v` at column `x` of scan line `y`. -/
def QImage.setPixel (img : QImage) (x y v : Nat) : QImage :=
  { img with pix := fun cx cy => if cx = x ∧ cy = y then some v else img.pix cx cy }

/-- The value of `qRgb(r, g, b)`: opaque alpha and the low eight bits of each channel. -/
def qRgb (r g b : Int) : Nat :=
  4278190080 + (r % 256).toNat * 65536 + (g % 256).toNat * 256 + (b % 256).toNat

/-- The cast `(int)v` of a double: truncation towards zero. -/
def truncInt (v : ℚ) : Int := if 0 ≤ v then ⌊v⌋ else ⌈v⌉

/-! ## `doRender` -/

/-- Lines 88-95: the packed pixel computed for `(col, row)`. -/
def renderPixel {ES D : Type} (X : ExposureStack ES D) (s : State ES) (col row : Nat) : Nat :=
  let c := X.rgb s.images col row
  qRgb (s.gamma (truncInt c.1)) (s.gamma (truncInt c.2.1)) (s.gamma (truncInt c.2.2))

/-- The inner loop of lines 87-97 with `n` columns left: `col` is the loop variable
and `x` the offset of `scanLine` within scan line `y`. -/
def renderCols {ES D : Type} (X : ExposureStack ES D) (s : State ES) (row y : Nat) :
    Nat → Nat → Nat → QImage → QImage
  | 0, _, _, img => img
  | n + 1, col, x, img =>
    renderCols X s row y n (col + 1) (x + 1) (img.setPixel x y (renderPixel X s col row))

/-- Lines 86-97: one row of the region, written to scan line `row - miny`. -/
def renderRow {ES D : Type} (X : ExposureStack ES D) (s : State ES)
    (minx miny maxx row : Nat) (img : QImage) : QImage :=
  renderCols X s row (usub row miny) (maxx - minx) minx 0 img

/-- One turn of the loop of line 83 at loop variable `row`: `none` when `doRender`
returns (the loop condition `!restart && row < maxy` fails, or `abort` is seen at
line 84), otherwise the buffer with the row written. -/
def doRenderStep {ES D : Type} (X : ExposureStack ES D) (s : State ES)
    (minx miny maxx maxy row : Nat) (img : QImage) : Option QImage :=
  if s.restart then none
  else if ¬ row < maxy then none
  else if s.abort then none
  else some (renderRow X s minx miny maxx row img)

/-! ## `run` -/

/-- Arguments of a `renderedImage` emission. -/
structure Frame where
  x : Nat
  y : Nat
  width : Int
  height : Int
  image : QImage

/-- Which of the two `doRender` calls of `run` is active. -/
inductive Pass
  | preview
  | full
  deriving DecidableEq, Repr

/-- Control points of `run`. -/
inductive PC
  /-- Line 106, the head of the `forever` loop. -/
  | top
  /-- Inside `doRender`, about to evaluate the loop condition of line 83 for `row`;
  the other fields are the arguments of the call. -/
  | render (pass : Pass) (minx miny maxx maxy row : Nat)
  /-- Line 110, after the first `doRender` returned. -/
  | afterPreview
  /-- Line 117, after the second `doRender` returned. -/
  | afterFull
  /-- Blocked in `condition.wait` (line 121). -/
  | waiting
  /-- Woken up, about to re-acquire the mutex and continue at line 123. -/
  | woken
  /-- `run` has returned. -/
  | done
  deriving DecidableEq, Repr

/-- A configuration of the render thread together with the shared fields:
the locals `_minx`, `_miny`, `_maxx`, `_maxy` of `run`, the two buffers, the
control point and the frames emitted so far (oldest first). -/
structure Config (ES : Type) where
  st : State ES
  _minx : Nat
  _miny : Nat
  _maxx : Nat
  _maxy : Nat
  a : QImage
  b : QImage
  pc : PC
  out : List Frame

/-- Lines 123-129: clear `restart`, copy the stored rectangle into the locals, push
the scale to the collaborator, and go back to the loop head. -/
def snapshot {ES D : Type} (X : ExposureStack ES D) (c : Config ES) : Config ES :=
  { c with
    st := { c.st with restart := false, images := X.setScale c.st.images c.st.scale }
    _minx := toUInt c.st.minx
    _miny := toUInt c.st.miny
    _maxx := toUInt c.st.maxx
    _maxy := toUInt c.st.maxy
    pc := PC.top }

/-- One step of the render thread. -/
def threadStep {ES D : Type} (X : ExposureStack ES D) (c : Config ES) : Config ES :=
  match c.pc with
  | PC.top =>
    if c.st.abort then { c with pc := PC.done }
    else
      { c with
        a := QImage.create (wrapInt (usub c._maxx c._minx)) (wrapInt (usub c._maxy c._miny))
        pc := PC.render Pass.preview c._minx c._miny c._maxx c._maxy c._miny }
  | PC.render Pass.preview minx miny maxx maxy row =>
    match doRenderStep X c.st minx miny maxx maxy row c.a with
    | some img => { c with a := img, pc := PC.render Pass.preview minx miny maxx maxy ((row + 1) % 4294967296) }
    | none => { c with pc := PC.afterPreview }
  | PC.afterPreview =>
    let W := X.getWidth c.st.images
    let H := X.getHeight c.st.images
    let c1 : Config ES :=
      if c.st.restart = false ∧ 0 < c._maxy then
        { c with out := c.out ++ [{ x := c._minx, y := c._miny, width := W, height := H, image := c.a }] }
      else c
    { c1 with
      b := QImage.create W H
      pc := PC.render Pass.full 0 0 (toUInt W) (toUInt H) 0 }
  | PC.render Pass.full minx miny maxx maxy row =>
    match doRenderStep X c.st minx miny maxx maxy row c.b with
    | some img => { c with b := img, pc := PC.render Pass.full minx miny maxx maxy ((row + 1) % 4294967296) }
    | none => { c with pc := PC.afterFull }
  | PC.afterFull =>
    if c.st.restart = false then
      { c with
        out := c.out ++ [{ x := 0, y := 0, width := X.getWidth c.st.images,
                           height := X.getHeight c.st.images, image := c.b }]
        pc := PC.waiting }
    else snapshot X c
  | PC.waiting => c
  | PC.woken => snapshot X c
  | PC.done => c

/-- The effect of `condition.wakeOne()` on the render thread: a thread blocked in
`condition.wait` becomes runnable, otherwise the call is lost. -/
def wakeOne {ES : Type} (c : Config ES) : Config ES :=
  match c.pc with
  | PC.waiting => { c with pc := PC.woken }
  | _ => c

/-- Install the outcome of a setter call: the new fields, then the wake-up if the
call issued one. -/
def afterCall {ES : Type} (c : Config ES) (r : Called ES) : Config ES :=
  if r.wake then wakeOne { c with st := r.state } else { c with st := r.state }

/-- What can happen next: a step of the render thread, a call of one of the public
setters by a producer, the destructor's `abort = true; condition.wakeOne()`, or a
`condition.wakeOne()` that arrives on its own (the tail of a setter call that was
overtaken by the render thread). -/
inductive Event (D : Type) where
  | thread
  | setGamma (pw : Int → ℚ)
  | setExposureThreshold (i th : Int)
  | setExposureRelativeEV (i : Int) (re : D)
  | calculateWB (x y radius : Int)
  | setImageViewport (x y w h newScale : Int)
  | destroy
  | wake

/-- The configuration after one event. -/
def step {ES D : Type} (X : ExposureStack ES D) (c : Config ES) : Event D → Config ES
  | Event.thread => threadStep X c
  | Event.setGamma pw => { c with st := setGamma pw c.st }
  | Event.setExposureThreshold i th => afterCall c (setExposureThreshold X i th c.st)
  | Event.setExposureRelativeEV i re => afterCall c (setExposureRelativeEV X i re c.st)
  | Event.calculateWB x y radius => afterCall c (calculateWB X x y radius c.st).toCalled
  | Event.setImageViewport x y w h newScale => afterCall c (setImageViewport x y w h newScale c.st)
  | Event.destroy => wakeOne { c with st := { c.st with abort := true } }
  | Event.wake => wakeOne c

/-- The configuration after a sequence of events. -/
def exec {ES D : Type} (X : ExposureStack ES D) (c : Config ES) (evs : List (Event D)) : Config ES :=
  evs.foldl (step X) c

/-- Lines 7-10 and 104: the configuration in which `run` starts, given the
collaborator state and the table that the constructor's `setGamma` call stored. -/
def start {ES : Type} (es : ES) (tbl : Int → Int) : Config ES :=
  { st := { restart := false, abort := false, images := es, minx := 0, miny := 0,
            maxx := 0, maxy := 0, scale := 0, gamma := tbl }
    _minx := 0, _miny := 0, _maxx := 0, _maxy := 0
    a := QImage.create 0 0
    b := QImage.create 0 0
    pc := PC.top
    out := [] }

/-! ## A concrete collaborator for evaluating the definitions -/

/-- A collaborator for a `W` by `H` image whose pixels are all black and whose
mutators keep its (trivial) state. -/
def blank (W H : Int) : ExposureStack Unit Unit :=
  { getWidth := fun _ => W
    getHeight := fun _ => H
    setThreshold := fun e _ _ => e
    setRelativeExposure := fun e _ _ => e
    calculateWB := fun e _ _ _ _ => e
    setScale := fun e _ => e
    getWBGR := fun _ => ()
    getWBBR := fun _ => ()
    rgb := fun _ _ _ => (0, 0, 0) }

/-- The fields right after construction, with an all-zero gamma table. -/
def fresh : State Unit := (start () (fun _ => 0)).st

/-- The render loop blocked in `condition.wait` after a completed cycle on a 2 by 2
image: stored scale `1`, restart flag false. -/
def idle : Config Unit :=
  exec (blank 2 2) (start () (fun _ => 0))
    (Event.setImageViewport 0 0 2 2 1 :: List.replicate 14 Event.thread)

/-- The calls that producers make into the collaborator (`setThreshold`,
`setRelativeExposure`, `calculateWB`) leave the image dimensions as they are. -/
def FixedSize {ES D : Type} (X : ExposureStack ES D) : Prop :=
  (∀ es i t, X.getWidth (X.setThreshold es i t) = X.getWidth es ∧
    X.getHeight (X.setThreshold es i t) = X.getHeight es) ∧
  (∀ es i re, X.getWidth (X.setRelativeExposure es i re) = X.getWidth es ∧
    X.getHeight (X.setRelativeExposure es i re) = X.getHeight es) ∧
  (∀ es x y w h, X.getWidth (X.calculateWB es x y w h) = X.getWidth es ∧
    X.getHeight (X.calculateWB es x y w h) = X.getHeight es)

/-- Invariant of the loop: from its creation until line 110 the preview buffer has
the dimensions computed from the locals at line 108, and from its creation until
line 118 the full-image buffer has the collaborator's dimensions. -/
def BuffersSized {ES D : Type} (X : ExposureStack ES D) (c : Config ES) : Prop :=
  match c.pc with
  | PC.render Pass.preview _ _ _ _ _ =>
    c.a.width = wrapInt (usub c._maxx c._minx) ∧ c.a.height = wrapInt (usub c._maxy c._miny)
  | PC.afterPreview =>
    c.a.width = wrapInt (usub c._maxx c._minx) ∧ c.a.height = wrapInt (usub c._maxy c._miny)
  | PC.render Pass.full _ _ _ _ _ =>
    c.b.width = X.getWidth c.st.images ∧ c.b.height = X.getHeight c.st.images
  | PC.afterFull =>
    c.b.width = X.getWidth c.st.images ∧ c.b.height = X.getHeight c.st.images
  | _ => True

/-- A pan-and-zoom to the 1 by 1 region at the origin of a 2 by 2 image, followed by
the steps of the render thread up to line 110 of the next iteration. -/
def zoomSchedule : List (Event Unit) :=
  Event.setImageViewport 0 0 1 1 1 :: List.replicate 8 Event.thread

/-- The configuration reached by `zoomSchedule` on a 2 by 2 image: the loop is at
line 110 with the working region `(0, 0, 1, 1)`. -/
def zoomed : Config Unit := exec (blank 2 2) (start () (fun _ => 0)) zoomSchedule

/-- The preview frame that the loop publishes from `zoomed`. -/
def zoomedFrame : Frame := { x := 0, y := 0, width := 2, height := 2, image := zoomed.a }

/-- On a 2 by 2 image: the viewport is set to the whole image, the render thread runs
until it has written row 0 of the preview pass, and then the destructor sets
`abort` and calls `condition.wakeOne()`. -/
def abortInPreview : List (Event Unit) :=
  Event.setImageViewport 0 0 2 2 1 :: List.replicate 7 Event.thread ++ [Event.destroy]

/-- On a 2 by 2 image with the initial empty viewport: the render thread runs until
it has written row 0 of the full-image pass, and then the destructor sets `abort`
and calls `condition.wakeOne()`. -/
def abortInFull : List (Event Unit) :=
  List.replicate 4 Event.thread ++ [Event.destroy]

/-- Every pixel of the rows `miny ≤ r < row` of the region has been written to `img`. -/
def RowsDone (img : QImage) (minx miny maxx row : Nat) : Prop :=
  ∀ r col, miny ≤ r → r < row → minx ≤ col → col < maxx →
    (img.pix (col - minx) (usub r miny)).isSome = true

/-- Invariant of the loop: inside a pass the rows before the loop variable are
written, and after a pass the buffer is complete unless `restart` or `abort` is set. -/
def PassInv {ES D : Type} (X : ExposureStack ES D) (c : Config ES) : Prop :=
  c._maxy < 4294967296 ∧
  match c.pc with
  | PC.render Pass.preview minx miny maxx maxy row =>
    minx = c._minx ∧ miny = c._miny ∧ maxx = c._maxx ∧ maxy = c._maxy ∧
    RowsDone c.a minx miny maxx row
  | PC.afterPreview =>
    c.st.restart = false → c.st.abort = false →
      RowsDone c.a c._minx c._miny c._maxx c._maxy
  | PC.render Pass.full minx miny maxx maxy row =>
    minx = 0 ∧ miny = 0 ∧ maxx = toUInt (X.getWidth c.st.images) ∧
    maxy = toUInt (X.getHeight c.st.images) ∧ RowsDone c.b minx miny maxx row
  | PC.afterFull =>
    c.st.restart = false → c.st.abort = false →
      RowsDone c.b 0 0 (toUInt (X.getWidth c.st.images)) (toUInt (X.getHeight c.st.images))
  | _ => True

/-- The loop of line 83 from loop variable `row`, for at most `n` turns.  `sAt r` are
the fields of `RenderThread` as they are when the loop condition is evaluated for
row `r`, so that `restart`, `abort`, the gamma table and the collaborator may change
between two rows. -/
def doRenderRows {ES D : Type} (X : ExposureStack ES D) (sAt : Nat → State ES)
    (minx miny maxx maxy : Nat) : Nat → Nat → QImage → QImage
  | 0, _, img => img
  | n + 1, row, img =>
    match doRenderStep X (sAt row) minx miny maxx maxy row img with
    | some img1 => doRenderRows X sAt minx miny maxx maxy n ((row + 1) % 4294967296) img1
    | none => img

/-- Lines 79-100: a whole call of `doRender`.  The loop runs at most `maxy - miny`
turns that write a row, after which the loop condition fails. -/
def doRender {ES D : Type} (X : ExposureStack ES D) (sAt : Nat → State ES)
    (minx miny maxx maxy : Nat) (img : QImage) : QImage :=
  doRenderRows X sAt minx miny maxx maxy (maxy - miny) miny img

/-- A buffer of 4 by 4 pixels none of which is written. -/
def canvas : QImage := QImage.create 4 4

/-- A valid index of the gamma table. -/
def InTable (v : Int) : Prop := 0 ≤ v ∧ v < 65536

/-- The fields seen by a pass in which `restart` is raised while row 0 is being
rendered: clear before row 0, set before every later row. -/
def restartDuringRow0 (r : Nat) : State Unit :=
  if r < 1 then fresh else { fresh with restart := true }

/-- On a 2 by 2 image: `setImageViewport(0, 1, 0, 0, 1)` stores the zero-area
rectangle `(0, 1, 0, 1)`, and the render thread runs up to line 110 of the iteration
that works on it. -/
def emptyRegionSchedule : List (Event Unit) :=
  Event.setImageViewport 0 1 0 0 1 :: List.replicate 7 Event.thread

/-- On a 2 by 2 image with the initial empty viewport: the destructor sets `abort`
while the render thread is in the (empty) preview pass, and the thread then runs up
to line 117. -/
def abortBeforeFull : List (Event Unit) :=
  [Event.thread, Event.destroy, Event.thread, Event.thread, Event.thread]

/-- The loop of `idle` after the pan `setImageViewport(1, 1, 1, 1, 1)` at the
unchanged scale `1`, later woken by a `condition.wakeOne()`. -/
def pannedAwake : Config Unit :=
  exec (blank 2 2) idle [Event.setImageViewport 1 1 1 1 1, Event.wake]

theorem wrapInt_of_isInt {z : Int} (h : IsInt z) : wrapInt z = z := by
  unfold IsInt at h
  unfold wrapInt
  omega

theorem toUInt_of_nonneg {z : Int} (h0 : 0 ≤ z) (h : z < 4294967296) : (toUInt z : Int) = z := by
  unfold toUInt
  rw [Int.emod_eq_of_lt h0 h]
  exact Int.toNat_of_nonneg h0

/-! ## The setters -/

/-- C5: `setImageViewport(x, y, w, h, newScale)` stores `minx = x`, `miny = y`,
`maxx = x + w`, `maxy = y + h` (the sums as the 32-bit `int` additions the code
performs, which are the exact sums whenever these are representable) and
`scale = newScale`; the restart flag becomes true when `newScale` differs from the
previously stored scale and keeps its prior value otherwise. -/
theorem setImageViewport_stores {ES : Type} (s : State ES) (x y w h newScale : Int) :
    (setImageViewport x y w h newScale s).state.minx = x ∧
    (setImageViewport x y w h newScale s).state.miny = y ∧
    (setImageViewport x y w h newScale s).state.maxx = wrapInt (x + w) ∧
    (setImageViewport x y w h newScale s).state.maxy = wrapInt (y + h) ∧
    (IsInt (x + w) → (setImageViewport x y w h newScale s).state.maxx = x + w) ∧
    (IsInt (y + h) → (setImageViewport x y w h newScale s).state.maxy = y + h) ∧
    (setImageViewport x y w h newScale s).state.scale = newScale ∧
    (newScale ≠ s.scale → (setImageViewport x y w h newScale s).state.restart = true) ∧
    (newScale = s.scale → (setImageViewport x y w h newScale s).state.restart = s.restart) := by
  unfold setImageViewport
  refine ⟨rfl, rfl, rfl, rfl, fun hx => wrapInt_of_isInt hx, fun hy => wrapInt_of_isInt hy, ?_, ?_, ?_⟩
  · by_cases hs : newScale = s.scale <;> simp [hs]
  · intro hs
    simp [hs]
  · intro hs
    simp [hs]

/-- Witness for C5: a pan to `(1, 2)` with size `3` by `4` at the stored scale `0`
of the freshly constructed renderer. -/
theorem setImageViewport_stores_witness :
    IsInt (1 + 3) ∧ IsInt (2 + 4) ∧ (0 : Int) = fresh.scale ∧
    (setImageViewport 1 2 3 4 0 fresh).state.maxx = 1 + 3 ∧
    (setImageViewport 1 2 3 4 0 fresh).state.maxy = 2 + 4 ∧
    (setImageViewport 1 2 3 4 0 fresh).state.restart = fresh.restart ∧
    (setImageViewport 1 2 3 4 7 fresh).state.restart = true :=
  ⟨by decide, by decide, rfl,
   (setImageViewport_stores fresh 1 2 3 4 0).2.2.2.2.1 (by decide),
   (setImageViewport_stores fresh 1 2 3 4 0).2.2.2.2.2.1 (by decide),
   (setImageViewport_stores fresh 1 2 3 4 0).2.2.2.2.2.2.2.2 rfl,
   (setImageViewport_stores fresh 1 2 3 4 7).2.2.2.2.2.2.2.1 (by decide)⟩

/-- C6: each of `setExposureThreshold`, `setExposureRelativeEV` and `calculateWB`
ends with the restart flag true and leaves the stored rectangle, the stored scale,
the abort flag and the gamma table as they were. -/
theorem exposure_setters_frame {ES D : Type} (X : ExposureStack ES D) (s : State ES)
    (i th : Int) (re : D) (x y radius : Int) :
    ((setExposureThreshold X i th s).state.restart = true ∧
      (setExposureThreshold X i th s).state.minx = s.minx ∧
      (setExposureThreshold X i th s).state.miny = s.miny ∧
      (setExposureThreshold X i th s).state.maxx = s.maxx ∧
      (setExposureThreshold X i th s).state.maxy = s.maxy ∧
      (setExposureThreshold X i th s).state.scale = s.scale ∧
      (setExposureThreshold X i th s).state.abort = s.abort ∧
      (setExposureThreshold X i th s).state.gamma = s.gamma) ∧
    ((setExposureRelativeEV X i re s).state.restart = true ∧
      (setExposureRelativeEV X i re s).state.minx = s.minx ∧
      (setExposureRelativeEV X i re s).state.miny = s.miny ∧
      (setExposureRelativeEV X i re s).state.maxx = s.maxx ∧
      (setExposureRelativeEV X i re s).state.maxy = s.maxy ∧
      (setExposureRelativeEV X i re s).state.scale = s.scale ∧
      (setExposureRelativeEV X i re s).state.abort = s.abort ∧
      (setExposureRelativeEV X i re s).state.gamma = s.gamma) ∧
    ((calculateWB X x y radius s).state.restart = true ∧
      (calculateWB X x y radius s).state.minx = s.minx ∧
      (calculateWB X x y radius s).state.miny = s.miny ∧
      (calculateWB X x y radius s).state.maxx = s.maxx ∧
      (calculateWB X x y radius s).state.maxy = s.maxy ∧
      (calculateWB X x y radius s).state.scale = s.scale ∧
      (calculateWB X x y radius s).state.abort = s.abort ∧
      (calculateWB X x y radius s).state.gamma = s.gamma) :=
  ⟨⟨rfl, rfl, rfl, rfl, rfl, rfl, rfl, rfl⟩, ⟨rfl, rfl, rfl, rfl, rfl, rfl, rfl, rfl⟩,
   ⟨rfl, rfl, rfl, rfl, rfl, rfl, rfl, rfl⟩⟩

/-! ## The white-balance rectangle -/

theorem wbOrigin_eq_max {c radius : Int} (hc : 0 ≤ c) (hc2 : c < 2147483648) (hr : 0 ≤ radius) :
    wbOrigin c radius = max (c - radius) 0 := by
  unfold wbOrigin
  split
  · rename_i h
    rw [wrapInt_of_isInt (by unfold IsInt; omega)]
    omega
  · omega

theorem wbExtent_eq_min {dim c radius : Int} (hd : dim < 2147483648) (hc : 0 ≤ c) (hcd : c ≤ dim)
    (hr : 0 ≤ radius) (hr2 : 2 * radius < 2147483648) :
    (wbExtent dim c radius : Int) = min (2 * radius) (dim - c) := by
  unfold wbExtent
  rw [wrapInt_of_isInt (z := dim - c) (by unfold IsInt; omega),
    wrapInt_of_isInt (z := 2 * radius) (by unfold IsInt; omega)]
  split
  · rw [toUInt_of_nonneg (by omega) (by omega)]
    omega
  · rw [toUInt_of_nonneg (by omega) (by omega)]
    omega

/-- C4, as stated, fails: with the loop blocked in `condition.wait` (stored scale `1`,
restart flag false), the pan `setImageViewport(1, 1, 1, 1, 1)` at the unchanged
scale stores the new rectangle, does not call `condition.wakeOne()`, and the loop
stays blocked however many steps the thread is given. -/
theorem setImageViewport_pan_no_wake :
    idle.pc = PC.waiting ∧ idle.st.scale = 1 ∧ idle.st.restart = false ∧
    (setImageViewport 1 1 1 1 1 idle.st).wake = false ∧
    (setImageViewport 1 1 1 1 1 idle.st).state.minx = 1 ∧
    (step (blank 2 2) idle (Event.setImageViewport 1 1 1 1 1 : Event Unit)).pc = PC.waiting ∧
    (exec (blank 2 2) idle
      [(Event.setImageViewport 1 1 1 1 1 : Event Unit), Event.thread, Event.thread]).pc
        = PC.waiting ∧
    (exec (blank 2 2) idle
      [(Event.setImageViewport 1 1 1 1 1 : Event Unit), Event.thread, Event.thread]).out.length
        = idle.out.length := by
  decide

/-- C4, amended: `setExposureThreshold`, `setExposureRelativeEV` and `calculateWB`
call `condition.wakeOne()` on every call; `setImageViewport` calls it exactly when
the restart flag is true after its update, that is when `newScale` differs from the
stored scale or the flag was already true. -/
theorem setters_wake {ES D : Type} (X : ExposureStack ES D) (s : State ES)
    (i th : Int) (re : D) (x y radius w h newScale : Int) :
    (setExposureThreshold X i th s).wake = true ∧
    (setExposureRelativeEV X i re s).wake = true ∧
    (calculateWB X x y radius s).wake = true ∧
    ((setImageViewport x y w h newScale s).wake = true ↔
      (newScale ≠ s.scale ∨ s.restart = true)) := by
  refine ⟨rfl, rfl, rfl, ?_⟩
  unfold setImageViewport
  by_cases hs : newScale = s.scale <;> simp [hs]

/-! ## The gamma table -/

theorem gammaEntry_eq_div {α : Type} [LinearOrderedField α] [FloorRing α] {p : α}
    (h0 : 0 ≤ p) (h1 : p ≤ 1) : gammaEntry p = ⌊65536 * p⌋ / 256 := by
  have hlo : (0 : Int) ≤ ⌊65536 * p⌋ := Int.floor_nonneg.mpr (by positivity)
  have hhi : ⌊65536 * p⌋ ≤ 65536 := by
    have : 65536 * p ≤ ((65536 : Int) : α) := by
      push_cast
      nlinarith
    exact Int.le_of_lt_add_one ((Int.floor_lt).mpr (by push_cast at this ⊢; linarith))
  unfold gammaEntry
  rw [wrapInt_of_isInt (by unfold IsInt; omega), Int.shiftRight_eq_div_pow]
  norm_num

theorem gammaEntry_mono {α : Type} [LinearOrderedField α] [FloorRing α] {p q : α}
    (h0 : 0 ≤ p) (hpq : p ≤ q) (h1 : q ≤ 1) : gammaEntry p ≤ gammaEntry q := by
  rw [gammaEntry_eq_div h0 (hpq.trans h1), gammaEntry_eq_div (h0.trans hpq) h1]
  apply Int.ediv_le_ediv (by norm_num)
  exact Int.floor_mono (by nlinarith)

theorem gammaEntry_range {α : Type} [LinearOrderedField α] [FloorRing α] {p : α}
    (h0 : 0 ≤ p) (h1 : p < 1) : 0 ≤ gammaEntry p ∧ gammaEntry p ≤ 255 := by
  have hlo : (0 : Int) ≤ ⌊65536 * p⌋ := Int.floor_nonneg.mpr (by positivity)
  have hhi : ⌊65536 * p⌋ < 65536 := by
    apply (Int.floor_lt).mpr
    push_cast
    linarith
  rw [gammaEntry_eq_div h0 h1.le]
  omega

theorem pow_level_bounds (e : ℝ) (he : 0 ≤ e) (i j : Int) (hi : 0 ≤ i) (hij : i ≤ j)
    (hj : j < 65536) :
    0 ≤ ((i : ℝ) / 65536) ^ e ∧ ((i : ℝ) / 65536) ^ e ≤ ((j : ℝ) / 65536) ^ e ∧
    ((j : ℝ) / 65536) ^ e ≤ 1 := by
  have hi' : (0 : ℝ) ≤ (i : ℝ) / 65536 := by
    have : (0 : ℝ) ≤ (i : ℝ) := by exact_mod_cast hi
    positivity
  have hij' : (i : ℝ) / 65536 ≤ (j : ℝ) / 65536 := by
    have : (i : ℝ) ≤ (j : ℝ) := by exact_mod_cast hij
    linarith
  have hj' : (j : ℝ) / 65536 ≤ 1 := by
    have : (j : ℝ) ≤ 65536 := by exact_mod_cast hj.le
    linarith
  exact ⟨Real.rpow_nonneg hi' e, Real.rpow_le_rpow hi' hij' he,
    Real.rpow_le_one (hi'.trans hij') hj' he⟩

/-- C9: for every gamma `g > 0` the table built by `setGamma(g)` is non-decreasing in
the level.  The floating-point division and `std::pow` are taken to return a rounding
`rnd` of the exact quotient and power, where `rnd` is any non-decreasing map that fixes
`0` and `1`: the identity gives the exact formula
`floor(65536 * (i/65536)^(1/g)) >> 8`, rounding to the nearest binary32 value gives a
correctly rounded `pow`. -/
theorem setGamma_nondecreasing {ES : Type} (rnd : ℝ → ℝ) (hmono : Monotone rnd)
    (hzero : rnd 0 = 0) (hone : rnd 1 = 1) (g : ℝ) (hg : 0 < g) (s : State ES)
    (i j : Int) (hi : 0 ≤ i) (hij : i ≤ j) (hj : j < 65536) :
    (setGamma (fun k : Int => rnd (((k : ℝ) / 65536) ^ rnd (1 / g))) s).gamma i ≤
      (setGamma (fun k : Int => rnd (((k : ℝ) / 65536) ^ rnd (1 / g))) s).gamma j := by
  have he : 0 ≤ rnd (1 / g) := le_of_eq_of_le hzero.symm (hmono (by positivity))
  obtain ⟨h0, hle, h1⟩ := pow_level_bounds (rnd (1 / g)) he i j hi hij hj
  have hi2 : 0 ≤ i ∧ i < 65536 := ⟨hi, by omega⟩
  have hj2 : 0 ≤ j ∧ j < 65536 := ⟨by omega, hj⟩
  simp only [setGamma, hi2, hj2, and_self, if_true]
  exact gammaEntry_mono (le_of_eq_of_le hzero.symm (hmono h0)) (hmono hle)
    (le_of_le_of_eq (hmono h1) hone)

/-- Witness for C9: gamma `2` in exact arithmetic, levels `0` and `65535`. -/
theorem setGamma_nondecreasing_witness :
    Monotone (fun x : ℝ => x) ∧ (0 : ℝ) < 2 ∧ (0 : Int) ≤ 0 ∧ (0 : Int) ≤ 65535 ∧
    (65535 : Int) < 65536 ∧
    (setGamma (fun k : Int => ((k : ℝ) / 65536) ^ ((1 : ℝ) / 2)) fresh).gamma 0 ≤
      (setGamma (fun k : Int => ((k : ℝ) / 65536) ^ ((1 : ℝ) / 2)) fresh).gamma 65535 :=
  ⟨fun _ _ h => h, by norm_num, by decide, by decide, by decide,
   setGamma_nondecreasing (fun x : ℝ => x) (fun _ _ h => h) rfl rfl 2 (by norm_num) fresh
     0 65535 (by decide) (by decide) (by decide)⟩

theorem one_sub_pow_mul_le_one (t : ℝ) (h0 : 0 ≤ t) (h1 : t ≤ 1) (n : ℕ) :
    (1 - t) ^ n * (1 + n * t) ≤ 1 := by
  have hb : 1 + (n : ℝ) * t ≤ (1 + t) ^ n := one_add_mul_le_pow (by linarith) n
  have hp : (1 - t) ^ n * (1 + t) ^ n ≤ 1 := by
    rw [← mul_pow]
    exact pow_le_one₀ (by nlinarith) (by nlinarith)
  have h3 : 0 ≤ (1 - t) ^ n := pow_nonneg (by linarith) n
  calc (1 - t) ^ n * (1 + n * t) ≤ (1 - t) ^ n * (1 + t) ^ n := mul_le_mul_of_nonneg_left hb h3
    _ ≤ 1 := hp

theorem top_level_power_bound : (1 - 1 / 2 ^ 25 : ℝ) ^ (2 ^ 20 : ℕ) < 65535 / 65536 := by
  have key := one_sub_pow_mul_le_one (1 / 2 ^ 25) (by norm_num) (by norm_num) (2 ^ 20)
  have hfac : (1 + ((2 ^ 20 : ℕ) : ℝ) * (1 / 2 ^ 25)) = 33 / 32 := by
    push_cast
    norm_num
  rw [hfac] at key
  generalize (1 - 1 / 2 ^ 25 : ℝ) ^ (2 ^ 20 : ℕ) = x at key ⊢
  linarith

theorem top_level_power_near_one :
    (1 - 1 / 2 ^ 25 : ℝ) < ((65535 : ℝ) / 65536) ^ ((1 : ℝ) / 2 ^ 20) ∧
    ((65535 : ℝ) / 65536) ^ ((1 : ℝ) / 2 ^ 20) < 1 := by
  constructor
  · have ha : (0 : ℝ) ≤ 1 - 1 / 2 ^ 25 := by norm_num
    have hroot :
        ((1 - 1 / 2 ^ 25 : ℝ) ^ (2 ^ 20 : ℕ)) ^ (((2 ^ 20 : ℕ) : ℝ)⁻¹) = 1 - 1 / 2 ^ 25 :=
      Real.pow_rpow_inv_natCast ha (by norm_num)
    have hexp : ((1 : ℝ) / 2 ^ 20) = (((2 ^ 20 : ℕ) : ℝ)⁻¹) := by
      push_cast
      norm_num
    have hinv : (0 : ℝ) < (((2 ^ 20 : ℕ) : ℝ)⁻¹) := by
      rw [← hexp]
      norm_num
    rw [hexp]
    calc (1 - 1 / 2 ^ 25 : ℝ)
        = ((1 - 1 / 2 ^ 25 : ℝ) ^ (2 ^ 20 : ℕ)) ^ (((2 ^ 20 : ℕ) : ℝ)⁻¹) := hroot.symm
      _ < ((65535 : ℝ) / 65536) ^ (((2 ^ 20 : ℕ) : ℝ)⁻¹) :=
          Real.rpow_lt_rpow (pow_nonneg ha _) top_level_power_bound hinv
  · apply Real.rpow_lt_one <;> norm_num

/-- C10 fails in binary32 arithmetic.  For `g = 2^20` and level `65535` the exact power
`(65535/65536)^(1/2^20)` lies strictly between `1 - 2^-25` and `1`; the binary32 values
next to it are `1 - 2^-24` and `1`, so `std::pow` returns `1.0f`.  The entry stored for
a level where `pow` returns `1.0f` is `65536 >> 8 = 256`, outside `[0, 255]`, and `qRgb`
packs it as the channel value `0`.  With `g = +∞` the exponent `1.0f / g` is `0`, `pow`
returns `1` at every level, and the whole table is `256`. -/
theorem setGamma_entry_256 :
    (1 - 1 / 2 ^ 25 : ℝ) < ((65535 : ℝ) / 65536) ^ ((1 : ℝ) / 2 ^ 20) ∧
    ((65535 : ℝ) / 65536) ^ ((1 : ℝ) / 2 ^ 20) < 1 ∧
    gammaEntry (1 : ℚ) = 256 ∧
    (setGamma (fun k : Int => if k = 65535 then (1 : ℚ) else 0) fresh).gamma 65535 = 256 ∧
    (setGamma (fun _ => (1 : ℚ)) fresh).gamma 0 = 256 ∧
    qRgb 256 256 256 = qRgb 0 0 0 := by
  have h : gammaEntry (1 : ℚ) = 256 := by
    simp [gammaEntry, wrapInt]
    decide
  refine ⟨top_level_power_near_one.1, top_level_power_near_one.2, h, ?_, ?_, by decide⟩
  · simp [setGamma, h]
  · simp [setGamma, h]

/-! ## Frames published by the render loop -/

theorem renderCols_dims {ES D : Type} (X : ExposureStack ES D) (s : State ES) (row y : Nat) :
    ∀ (n col x : Nat) (img : QImage),
      (renderCols X s row y n col x img).width = img.width ∧
      (renderCols X s row y n col x img).height = img.height := by
  intro n
  induction n with
  | zero => intro col x img; exact ⟨rfl, rfl⟩
  | succ n ih =>
    intro col x img
    have h := ih (col + 1) (x + 1) (img.setPixel x y (renderPixel X s col row))
    simpa [renderCols, QImage.setPixel] using h

theorem doRenderStep_dims {ES D : Type} {X : ExposureStack ES D} {s : State ES}
    {minx miny maxx maxy row : Nat} {img img' : QImage}
    (h : doRenderStep X s minx miny maxx maxy row img = some img') :
    img'.width = img.width ∧ img'.height = img.height := by
  unfold doRenderStep at h
  split at h
  · cases h
  · split at h
    · cases h
    · split at h
      · cases h
      · cases h
        exact renderCols_dims X s row (usub row miny) (maxx - minx) minx 0 img

theorem wakeOne_fields {ES : Type} (c : Config ES) :
    (wakeOne c).st = c.st ∧ (wakeOne c)._minx = c._minx ∧ (wakeOne c)._miny = c._miny ∧
    (wakeOne c)._maxx = c._maxx ∧ (wakeOne c)._maxy = c._maxy ∧ (wakeOne c).a = c.a ∧
    (wakeOne c).b = c.b ∧ (wakeOne c).out = c.out ∧
    ((wakeOne c).pc = c.pc ∨ (c.pc = PC.waiting ∧ (wakeOne c).pc = PC.woken)) := by
  unfold wakeOne
  split <;> simp_all

theorem buffersSized_wakeOne {ES D : Type} (X : ExposureStack ES D) (c : Config ES)
    (h : BuffersSized X c) : BuffersSized X (wakeOne c) := by
  unfold wakeOne
  split
  · simp [BuffersSized]
  · exact h

theorem buffersSized_setState {ES D : Type} (X : ExposureStack ES D) (c : Config ES)
    (st : State ES) (hW : X.getWidth st.images = X.getWidth c.st.images)
    (hH : X.getHeight st.images = X.getHeight c.st.images) (h : BuffersSized X c) :
    BuffersSized X { c with st := st } := by
  unfold BuffersSized at h ⊢
  split <;> simp_all

theorem buffersSized_afterCall {ES D : Type} (X : ExposureStack ES D) (c : Config ES)
    (r : Called ES) (hW : X.getWidth r.state.images = X.getWidth c.st.images)
    (hH : X.getHeight r.state.images = X.getHeight c.st.images) (h : BuffersSized X c) :
    BuffersSized X (afterCall c r) := by
  unfold afterCall
  split
  · exact buffersSized_wakeOne X _ (buffersSized_setState X c r.state hW hH h)
  · exact buffersSized_setState X c r.state hW hH h

theorem buffersSized_threadStep {ES D : Type} (X : ExposureStack ES D) (c : Config ES)
    (h : BuffersSized X c) : BuffersSized X (threadStep X c) := by
  unfold threadStep
  split
  · split <;> simp [BuffersSized, QImage.create]
  · rename_i minx miny maxx maxy row hpc
    split
    · rename_i img himg
      have hd := doRenderStep_dims himg
      simp only [BuffersSized, hpc] at h
      simp only [BuffersSized]
      rw [hd.1, hd.2]
      exact h
    · simp only [BuffersSized, hpc] at h
      simpa [BuffersSized] using h
  · split <;> simp [BuffersSized, QImage.create]
  · rename_i minx miny maxx maxy row hpc
    split
    · rename_i img himg
      have hd := doRenderStep_dims himg
      simp only [BuffersSized, hpc] at h
      simp only [BuffersSized]
      rw [hd.1, hd.2]
      exact h
    · simp only [BuffersSized, hpc] at h
      simpa [BuffersSized] using h
  · split <;> simp [BuffersSized, snapshot]
  · exact h
  · simp [BuffersSized, snapshot]
  · exact h

theorem buffersSized_step {ES D : Type} (X : ExposureStack ES D) (hX : FixedSize X)
    (c : Config ES) (e : Event D) (h : BuffersSized X c) : BuffersSized X (step X c e) := by
  cases e with
  | thread => exact buffersSized_threadStep X c h
  | setGamma pw => exact buffersSized_setState X c _ rfl rfl h
  | setExposureThreshold i th =>
    exact buffersSized_afterCall X c _ (hX.1 _ _ _).1 (hX.1 _ _ _).2 h
  | setExposureRelativeEV i re =>
    exact buffersSized_afterCall X c _ (hX.2.1 _ _ _).1 (hX.2.1 _ _ _).2 h
  | calculateWB x y radius =>
    exact buffersSized_afterCall X c _ (hX.2.2 _ _ _ _ _).1 (hX.2.2 _ _ _ _ _).2 h
  | setImageViewport x y w h' newScale =>
    refine buffersSized_afterCall X c _ ?_ ?_ h
    · unfold setImageViewport
      by_cases hs : newScale = c.st.scale <;> simp [hs]
    · unfold setImageViewport
      by_cases hs : newScale = c.st.scale <;> simp [hs]
  | destroy => exact buffersSized_wakeOne X _ (buffersSized_setState X c _ rfl rfl h)
  | wake => exact buffersSized_wakeOne X c h

theorem buffersSized_exec {ES D : Type} (X : ExposureStack ES D) (hX : FixedSize X)
    (evs : List (Event D)) :
    ∀ c : Config ES, BuffersSized X c → BuffersSized X (exec X c evs) := by
  induction evs with
  | nil => intro c h; exact h
  | cons e evs ih =>
    intro c h
    exact ih (step X c e) (buffersSized_step X hX c e h)

theorem afterCall_out {ES : Type} (c : Config ES) (r : Called ES) :
    (afterCall c r).out = c.out := by
  unfold afterCall
  split
  · exact (wakeOne_fields _).2.2.2.2.2.2.2.1
  · rfl

theorem list_ne_append_singleton {α : Type} (l : List α) (x : α) : l ≠ l ++ [x] := by
  intro h
  have := congrArg List.length h
  simp at this

theorem published_of_sized {ES D : Type} (X : ExposureStack ES D) (c : Config ES)
    (hc : BuffersSized X c) (e : Event D) (f : Frame)
    (hf : (step X c e).out = c.out ++ [f]) :
    e = Event.thread ∧
    f.width = X.getWidth c.st.images ∧ f.height = X.getHeight c.st.images ∧
    ((c.pc = PC.afterPreview ∧ f.x = c._minx ∧ f.y = c._miny ∧ f.image = c.a ∧
        f.image.width = wrapInt (usub c._maxx c._minx) ∧
        f.image.height = wrapInt (usub c._maxy c._miny)) ∨
      (c.pc = PC.afterFull ∧ f.x = 0 ∧ f.y = 0 ∧ f.image = c.b ∧
        f.image.width = f.width ∧ f.image.height = f.height)) := by
  cases e with
  | thread =>
    simp only [step] at hf
    unfold threadStep at hf
    split at hf
    · split at hf <;> exact absurd hf (list_ne_append_singleton _ _)
    · split at hf <;> exact absurd hf (list_ne_append_singleton _ _)
    · rename_i hpc
      simp only [BuffersSized, hpc] at hc
      split at hf
      · simp only [List.append_cancel_left_eq, List.cons.injEq, and_true] at hf
        subst hf
        exact ⟨rfl, rfl, rfl, Or.inl ⟨hpc, rfl, rfl, rfl, hc.1, hc.2⟩⟩
      · exact absurd hf (list_ne_append_singleton _ _)
    · split at hf <;> exact absurd hf (list_ne_append_singleton _ _)
    · rename_i hpc
      simp only [BuffersSized, hpc] at hc
      split at hf
      · simp only [List.append_cancel_left_eq, List.cons.injEq, and_true] at hf
        subst hf
        exact ⟨rfl, rfl, rfl, Or.inr ⟨hpc, rfl, rfl, rfl, hc.1, hc.2⟩⟩
      · exact absurd hf (list_ne_append_singleton _ _)
    · exact absurd hf (list_ne_append_singleton _ _)
    · exact absurd hf (list_ne_append_singleton _ _)
    · exact absurd hf (list_ne_append_singleton _ _)
  | setGamma pw => exact absurd hf (list_ne_append_singleton _ _)
  | setExposureThreshold i th =>
    simp only [step, afterCall_out] at hf
    exact absurd hf (list_ne_append_singleton _ _)
  | setExposureRelativeEV i re =>
    simp only [step, afterCall_out] at hf
    exact absurd hf (list_ne_append_singleton _ _)
  | calculateWB x y radius =>
    simp only [step, afterCall_out] at hf
    exact absurd hf (list_ne_append_singleton _ _)
  | setImageViewport x y w h newScale =>
    simp only [step, afterCall_out] at hf
    exact absurd hf (list_ne_append_singleton _ _)
  | destroy =>
    simp only [step, (wakeOne_fields _).2.2.2.2.2.2.2.1] at hf
    exact absurd hf (list_ne_append_singleton _ _)
  | wake =>
    simp only [step, (wakeOne_fields _).2.2.2.2.2.2.2.1] at hf
    exact absurd hf (list_ne_append_singleton _ _)

/-- C1, as stated, fails for the preview frame: on a 2 by 2 image with the working
region `(0, 0, 1, 1)` the loop publishes the offset `(0, 0)`, the width and height
arguments `2` and `2`, and a buffer of 1 by 1 pixels. -/
theorem renderedImage_preview_args_differ :
    (exec (blank 2 2) (start () (fun _ => 0)) zoomSchedule).pc = PC.afterPreview ∧
    ((exec (blank 2 2) (start () (fun _ => 0)) zoomSchedule)._minx,
      (exec (blank 2 2) (start () (fun _ => 0)) zoomSchedule)._miny,
      (exec (blank 2 2) (start () (fun _ => 0)) zoomSchedule)._maxx,
      (exec (blank 2 2) (start () (fun _ => 0)) zoomSchedule)._maxy) = (0, 0, 1, 1) ∧
    (exec (blank 2 2) (start () (fun _ => 0)) (zoomSchedule ++ [Event.thread])).out.map
      (fun f => (f.x, f.y, f.width, f.height, f.image.width, f.image.height))
      = [(0, 0, 2, 2, 1, 1)] := by
  decide

/-- C1, amended: every frame the loop publishes carries the collaborator image's
width and height as its width and height arguments.  The full-image frame has
offset `(0, 0)` and a buffer of exactly those dimensions.  The preview frame has
offset `(_minx, _miny)` and a buffer of `_maxx - _minx` by `_maxy - _miny` pixels
(the `unsigned int` differences), which its width and height arguments do not
describe.  Only steps of the render thread publish frames. -/
theorem renderedImage_args {ES D : Type} (X : ExposureStack ES D) (hX : FixedSize X)
    (es : ES) (tbl : Int → Int) (evs : List (Event D)) (c : Config ES)
    (hc : c = exec X (start es tbl) evs) (e : Event D) (f : Frame)
    (hf : (step X c e).out = c.out ++ [f]) :
    e = Event.thread ∧
    f.width = X.getWidth c.st.images ∧ f.height = X.getHeight c.st.images ∧
    ((c.pc = PC.afterPreview ∧ f.x = c._minx ∧ f.y = c._miny ∧ f.image = c.a ∧
        f.image.width = wrapInt (usub c._maxx c._minx) ∧
        f.image.height = wrapInt (usub c._maxy c._miny)) ∨
      (c.pc = PC.afterFull ∧ f.x = 0 ∧ f.y = 0 ∧ f.image = c.b ∧
        f.image.width = f.width ∧ f.image.height = f.height)) := by
  subst hc
  exact published_of_sized X _
    (buffersSized_exec X hX evs _ (by simp [BuffersSized, start])) e f hf

/-- Witness for C1 (amended): the preview frame published from `zoomed`. -/
theorem renderedImage_args_witness :
    FixedSize (blank 2 2) ∧
    (step (blank 2 2) zoomed (Event.thread : Event Unit)).out = zoomed.out ++ [zoomedFrame] ∧
    ((Event.thread : Event Unit) = Event.thread ∧
    zoomedFrame.width = (blank 2 2).getWidth zoomed.st.images ∧
    zoomedFrame.height = (blank 2 2).getHeight zoomed.st.images ∧
    ((zoomed.pc = PC.afterPreview ∧ zoomedFrame.x = zoomed._minx ∧
        zoomedFrame.y = zoomed._miny ∧ zoomedFrame.image = zoomed.a ∧
        zoomedFrame.image.width = wrapInt (usub zoomed._maxx zoomed._minx) ∧
        zoomedFrame.image.height = wrapInt (usub zoomed._maxy zoomed._miny)) ∨
      (zoomed.pc = PC.afterFull ∧ zoomedFrame.x = 0 ∧ zoomedFrame.y = 0 ∧
        zoomedFrame.image = zoomed.b ∧
        zoomedFrame.image.width = zoomedFrame.width ∧
        zoomedFrame.image.height = zoomedFrame.height))) :=
  ⟨⟨fun _ _ _ => ⟨rfl, rfl⟩, fun _ _ _ => ⟨rfl, rfl⟩, fun _ _ _ _ _ => ⟨rfl, rfl⟩⟩, rfl,
   renderedImage_args (blank 2 2)
     ⟨fun _ _ _ => ⟨rfl, rfl⟩, fun _ _ _ => ⟨rfl, rfl⟩, fun _ _ _ _ _ => ⟨rfl, rfl⟩⟩
     () (fun _ => 0) zoomSchedule zoomed rfl Event.thread zoomedFrame rfl⟩

/-! ## Abort during a pass -/

/-- C2 fails when `abort` interrupts a pass: after `abortInPreview` the preview pass
over the region `(0, 0, 2, 2)` has written row 0 only and `abort` is true; the next
step leaves `doRender` at line 84, and the step after it publishes that buffer, whose
row 1 was never written.  The full-image pass that follows is cut short in the same
way and its buffer, with no row written, is published too. -/
theorem abort_interrupted_pass_published :
    (exec (blank 2 2) (start () (fun _ => 0)) abortInPreview).pc
      = PC.render Pass.preview 0 0 2 2 1 ∧
    (exec (blank 2 2) (start () (fun _ => 0)) abortInPreview).st.abort = true ∧
    (exec (blank 2 2) (start () (fun _ => 0)) abortInPreview).st.restart = false ∧
    (exec (blank 2 2) (start () (fun _ => 0)) abortInPreview).out.length = 0 ∧
    (exec (blank 2 2) (start () (fun _ => 0))
      (abortInPreview ++ [Event.thread])).pc = PC.afterPreview ∧
    (exec (blank 2 2) (start () (fun _ => 0))
      (abortInPreview ++ [Event.thread, Event.thread])).out.map
        (fun f => (f.image.width, f.image.height,
          [(f.image.pix 0 0).isSome, (f.image.pix 1 0).isSome,
           (f.image.pix 0 1).isSome, (f.image.pix 1 1).isSome]))
      = [(2, 2, [true, true, false, false])] ∧
    (exec (blank 2 2) (start () (fun _ => 0))
      (abortInPreview ++ [Event.thread, Event.thread, Event.thread, Event.thread])).out.map
        (fun f => (f.image.width, f.image.height,
          [(f.image.pix 0 0).isSome, (f.image.pix 1 0).isSome,
           (f.image.pix 0 1).isSome, (f.image.pix 1 1).isSome]))
      = [(2, 2, [true, true, false, false]), (2, 2, [false, false, false, false])] := by
  decide

/-- C3 fails when `abort` is set during a pass: after `abortInFull` the flag is true
and nothing has been published; two steps later the loop has published a frame, and
it then sits in `condition.wait` instead of leaving `run`, whatever further steps the
thread is given. -/
theorem frame_published_after_abort :
    (exec (blank 2 2) (start () (fun _ => 0)) abortInFull).st.abort = true ∧
    (exec (blank 2 2) (start () (fun _ => 0)) abortInFull).pc = PC.render Pass.full 0 0 2 2 1 ∧
    (exec (blank 2 2) (start () (fun _ => 0)) abortInFull).out.length = 0 ∧
    (exec (blank 2 2) (start () (fun _ => 0))
      (abortInFull ++ [Event.thread, Event.thread])).out.length = 1 ∧
    (exec (blank 2 2) (start () (fun _ => 0))
      (abortInFull ++ [Event.thread, Event.thread])).pc = PC.waiting ∧
    (exec (blank 2 2) (start () (fun _ => 0))
      (abortInFull ++ [Event.thread, Event.thread, Event.thread, Event.thread])).pc
        = PC.waiting := by
  decide

/-! ## Completeness of published buffers when `abort` is not set -/

theorem toUInt_lt (z : Int) : toUInt z < 4294967296 := by
  unfold toUInt
  have h := Int.emod_lt_of_pos z (show (0 : Int) < 4294967296 by norm_num)
  have h0 := Int.emod_nonneg z (show (4294967296 : Int) ≠ 0 by norm_num)
  omega

theorem renderCols_written {ES D : Type} (X : ExposureStack ES D) (s : State ES) (row y : Nat) :
    ∀ (n col x : Nat) (img : QImage),
      (∀ k, k < n → ((renderCols X s row y n col x img).pix (x + k) y).isSome = true) ∧
      (∀ cx cy, (img.pix cx cy).isSome = true →
        ((renderCols X s row y n col x img).pix cx cy).isSome = true) := by
  intro n
  induction n with
  | zero =>
    intro col x img
    exact ⟨fun k hk => absurd hk (Nat.not_lt_zero k), fun _ _ h => h⟩
  | succ n ih =>
    intro col x img
    obtain ⟨h1, h2⟩ := ih (col + 1) (x + 1) (img.setPixel x y (renderPixel X s col row))
    have hset : ∀ cx cy, (img.pix cx cy).isSome = true →
        ((img.setPixel x y (renderPixel X s col row)).pix cx cy).isSome = true := by
      intro cx cy h
      simp only [QImage.setPixel]
      split
      · rfl
      · exact h
    refine ⟨?_, fun cx cy h => h2 cx cy (hset cx cy h)⟩
    intro k hk
    cases k with
    | zero =>
      apply h2
      simp [QImage.setPixel]
    | succ k =>
      have := h1 k (by omega)
      simpa [renderCols, Nat.add_assoc, Nat.add_comm 1 k] using this

theorem rowsDone_step {ES D : Type} {X : ExposureStack ES D} {s : State ES}
    {minx miny maxx maxy row : Nat} {img img' : QImage}
    (hmax : maxy < 4294967296) (hdone : RowsDone img minx miny maxx row)
    (h : doRenderStep X s minx miny maxx maxy row img = some img') :
    RowsDone img' minx miny maxx ((row + 1) % 4294967296) := by
  unfold doRenderStep at h
  split at h
  · cases h
  · split at h
    · cases h
    · rename_i hrow
      split at h
      · cases h
      · cases h
        have hlt : row < maxy := by simpa using hrow
        rw [Nat.mod_eq_of_lt (by omega)]
        obtain ⟨h1, h2⟩ := renderCols_written X s row (usub row miny) (maxx - minx) minx 0 img
        intro r col hr1 hr2 hc1 hc2
        by_cases hr : r < row
        · exact h2 _ _ (hdone r col hr1 hr hc1 hc2)
        · have hreq : r = row := by omega
          subst hreq
          have := h1 (col - minx) (by omega)
          simpa [renderRow] using this

theorem rowsDone_exit {ES D : Type} {X : ExposureStack ES D} {s : State ES}
    {minx miny maxx maxy row : Nat} {img : QImage}
    (hdone : RowsDone img minx miny maxx row)
    (h : doRenderStep X s minx miny maxx maxy row img = none)
    (hr : s.restart = false) (ha : s.abort = false) :
    RowsDone img minx miny maxx maxy := by
  unfold doRenderStep at h
  simp only [hr, ha, Bool.false_eq_true, if_false] at h
  split at h
  · rename_i hrow
    intro r col hr1 hr2 hc1 hc2
    exact hdone r col hr1 (by omega) hc1 hc2
  · cases h

theorem rowsDone_create (w h : Int) (minx miny maxx : Nat) :
    RowsDone (QImage.create w h) minx miny maxx miny := by
  intro r col hr1 hr2
  omega

theorem passInv_wakeOne {ES D : Type} (X : ExposureStack ES D) (c : Config ES)
    (h : PassInv X c) : PassInv X (wakeOne c) := by
  unfold wakeOne
  split
  · exact ⟨h.1, by simp⟩
  · exact h

theorem passInv_setState {ES D : Type} (X : ExposureStack ES D) (c : Config ES)
    (st : State ES) (hW : X.getWidth st.images = X.getWidth c.st.images)
    (hH : X.getHeight st.images = X.getHeight c.st.images)
    (hr : st.restart = false → c.st.restart = false)
    (ha : st.abort = false → c.st.abort = false) (h : PassInv X c) :
    PassInv X { c with st := st } := by
  obtain ⟨hb, h⟩ := h
  refine ⟨hb, ?_⟩
  split at h
  · rename_i hpc
    simpa [hpc] using h
  · rename_i hpc
    simp only [hpc]
    intro h1 h2
    exact h (hr h1) (ha h2)
  · rename_i hpc
    simp only [hpc, hW, hH]
    exact h
  · rename_i hpc
    simp only [hpc, hW, hH]
    intro h1 h2
    exact h (hr h1) (ha h2)
  · trivial

theorem passInv_afterCall {ES D : Type} (X : ExposureStack ES D) (c : Config ES)
    (r : Called ES) (hW : X.getWidth r.state.images = X.getWidth c.st.images)
    (hH : X.getHeight r.state.images = X.getHeight c.st.images)
    (hr : r.state.restart = false → c.st.restart = false)
    (ha : r.state.abort = false → c.st.abort = false) (h : PassInv X c) :
    PassInv X (afterCall c r) := by
  unfold afterCall
  split
  · exact passInv_wakeOne X _ (passInv_setState X c r.state hW hH hr ha h)
  · exact passInv_setState X c r.state hW hH hr ha h

theorem passInv_threadStep {ES D : Type} (X : ExposureStack ES D) (c : Config ES)
    (h : PassInv X c) : PassInv X (threadStep X c) := by
  obtain ⟨hb, h⟩ := h
  unfold threadStep
  split
  · split
    · exact ⟨hb, by simp⟩
    · exact ⟨hb, rfl, rfl, rfl, rfl, rowsDone_create _ _ _ _ _⟩
  · rename_i minx miny maxx maxy row hpc
    simp only [hpc] at h
    obtain ⟨h1, h2, h3, h4, hdone⟩ := h
    split
    · rename_i img himg
      exact ⟨hb, h1, h2, h3, h4, rowsDone_step (by omega) hdone himg⟩
    · rename_i hnone
      refine ⟨hb, ?_⟩
      intro hr ha
      have := rowsDone_exit hdone hnone hr ha
      simpa [h1, h2, h3, h4] using this
  · split
    · exact ⟨hb, rfl, rfl, rfl, rfl, rowsDone_create _ _ _ _ _⟩
    · exact ⟨hb, rfl, rfl, rfl, rfl, rowsDone_create _ _ _ _ _⟩
  · rename_i minx miny maxx maxy row hpc
    simp only [hpc] at h
    obtain ⟨h1, h2, h3, h4, hdone⟩ := h
    split
    · rename_i img himg
      refine ⟨hb, h1, h2, h3, h4, rowsDone_step ?_ hdone himg⟩
      rw [h4]
      exact toUInt_lt _
    · rename_i hnone
      refine ⟨hb, ?_⟩
      intro hr ha
      have := rowsDone_exit hdone hnone hr ha
      simpa [h1, h2, h3, h4] using this
  · split
    · exact ⟨hb, by simp⟩
    · exact ⟨toUInt_lt _, by simp [snapshot]⟩
  · exact ⟨hb, h⟩
  · exact ⟨toUInt_lt _, by simp [snapshot]⟩
  · exact ⟨hb, h⟩

theorem passInv_step {ES D : Type} (X : ExposureStack ES D) (hX : FixedSize X)
    (c : Config ES) (e : Event D) (h : PassInv X c) : PassInv X (step X c e) := by
  cases e with
  | thread => exact passInv_threadStep X c h
  | setGamma pw => exact passInv_setState X c _ rfl rfl (fun h => h) (fun h => h) h
  | setExposureThreshold i th =>
    exact passInv_afterCall X c _ (hX.1 _ _ _).1 (hX.1 _ _ _).2
      (fun h => by simp [setExposureThreshold] at h) (fun h => h) h
  | setExposureRelativeEV i re =>
    exact passInv_afterCall X c _ (hX.2.1 _ _ _).1 (hX.2.1 _ _ _).2
      (fun h => by simp [setExposureRelativeEV] at h) (fun h => h) h
  | calculateWB x y radius =>
    exact passInv_afterCall X c _ (hX.2.2 _ _ _ _ _).1 (hX.2.2 _ _ _ _ _).2
      (fun h => by simp [calculateWB] at h) (fun h => h) h
  | setImageViewport x y w h' newScale =>
    refine passInv_afterCall X c _ ?_ ?_ ?_ ?_ h
    · unfold setImageViewport
      by_cases hs : newScale = c.st.scale <;> simp [hs]
    · unfold setImageViewport
      by_cases hs : newScale = c.st.scale <;> simp [hs]
    · unfold setImageViewport
      by_cases hs : newScale = c.st.scale <;> simp [hs]
    · unfold setImageViewport
      by_cases hs : newScale = c.st.scale <;> simp [hs]
  | destroy =>
    exact passInv_wakeOne X _
      (passInv_setState X c _ rfl rfl (fun h => h) (fun h => by simp at h) h)
  | wake => exact passInv_wakeOne X c h

theorem passInv_exec {ES D : Type} (X : ExposureStack ES D) (hX : FixedSize X)
    (evs : List (Event D)) :
    ∀ c : Config ES, PassInv X c → PassInv X (exec X c evs) := by
  induction evs with
  | nil => intro c h; exact h
  | cons e evs ih =>
    intro c h
    exact ih (step X c e) (passInv_step X hX c e h)

/-- While `abort` is false, a frame is published only from a pass that wrote every
row of its region: the preview frame covers the working region, the full-image frame
covers the whole image.  A pass cut short by `restart` is therefore never published. -/
theorem published_complete_unless_abort {ES D : Type} (X : ExposureStack ES D)
    (hX : FixedSize X) (es : ES) (tbl : Int → Int) (evs : List (Event D)) (c : Config ES)
    (hc : c = exec X (start es tbl) evs) (e : Event D) (f : Frame)
    (hf : (step X c e).out = c.out ++ [f]) (ha : c.st.abort = false) :
    (c.pc = PC.afterPreview ∧ RowsDone f.image c._minx c._miny c._maxx c._maxy) ∨
    (c.pc = PC.afterFull ∧ RowsDone f.image 0 0 (toUInt f.width) (toUInt f.height)) := by
  have hinv : PassInv X c := by
    subst hc
    exact passInv_exec X hX evs _ ⟨by simp [start], by simp [start]⟩
  have hsz : BuffersSized X c := by
    subst hc
    exact buffersSized_exec X hX evs _ (by simp [BuffersSized, start])
  obtain ⟨_, hw, hh, hcase⟩ := published_of_sized X c hsz e f hf
  obtain ⟨_, hinv⟩ := hinv
  cases e with
  | thread =>
    simp only [step] at hf
    rcases hcase with ⟨hpc, _, _, himg, _⟩ | ⟨hpc, _, _, himg, _⟩
    · left
      refine ⟨hpc, ?_⟩
      simp only [hpc] at hinv
      unfold threadStep at hf
      simp only [hpc] at hf
      by_cases hr : c.st.restart = false
      · rw [himg]
        exact hinv hr ha
      · exfalso
        simp only [hr, false_and, if_false] at hf
        exact list_ne_append_singleton _ _ hf
    · right
      refine ⟨hpc, ?_⟩
      simp only [hpc] at hinv
      unfold threadStep at hf
      simp only [hpc] at hf
      by_cases hr : c.st.restart = false
      · rw [himg, hw, hh]
        exact hinv hr ha
      · exfalso
        simp only [hr, if_false, snapshot] at hf
        exact list_ne_append_singleton _ _ hf
  | setGamma pw => exact absurd hf (list_ne_append_singleton _ _)
  | setExposureThreshold i th =>
    simp only [step, afterCall_out] at hf
    exact absurd hf (list_ne_append_singleton _ _)
  | setExposureRelativeEV i re =>
    simp only [step, afterCall_out] at hf
    exact absurd hf (list_ne_append_singleton _ _)
  | calculateWB x y radius =>
    simp only [step, afterCall_out] at hf
    exact absurd hf (list_ne_append_singleton _ _)
  | setImageViewport x y w h newScale =>
    simp only [step, afterCall_out] at hf
    exact absurd hf (list_ne_append_singleton _ _)
  | destroy =>
    simp only [step, (wakeOne_fields _).2.2.2.2.2.2.2.1] at hf
    exact absurd hf (list_ne_append_singleton _ _)
  | wake =>
    simp only [step, (wakeOne_fields _).2.2.2.2.2.2.2.1] at hf
    exact absurd hf (list_ne_append_singleton _ _)

/-! ## The gamma table for gamma `1.0` -/

theorem gammaEntry_near {p : ℝ} {i : Int} (hi : 0 ≤ i) (hi2 : i < 65536)
    (hp : |p - (i : ℝ) / 65536| ≤ 1 / 256) :
    |gammaEntry p - i >>> (8 : Nat)| ≤ 1 := by
  obtain ⟨hlo, hhi⟩ := abs_le.mp hp
  have h1 : i - 256 ≤ ⌊65536 * p⌋ := by
    apply Int.le_floor.mpr
    push_cast
    linarith
  have h2 : ⌊65536 * p⌋ ≤ i + 256 := by
    apply Int.le_of_lt_add_one
    apply Int.floor_lt.mpr
    push_cast
    linarith
  unfold gammaEntry
  rw [wrapInt_of_isInt (by unfold IsInt; omega), Int.shiftRight_eq_div_pow,
    Int.shiftRight_eq_div_pow]
  rw [abs_le]
  norm_num
  omega

/-- C11: after `setGamma(1.0)` every entry `gamma[i]`, `0 ≤ i < 65536`, differs from
`i >> 8` by at most 1.  The division `1.0f / 1.0f` is exact (`rnd 1 = 1`), and
`std::pow(x, 1.0f)` is taken to return a value `rnd x` within `2^-8` of `x` at every
level; a `pow` that returns `x` itself, as the exact power does, is the case
`rnd = id`. -/
theorem setGamma_one_near_identity {ES : Type} (rnd : ℝ → ℝ) (hone : rnd 1 = 1)
    (hacc : ∀ k : Int, 0 ≤ k → k < 65536 →
      |rnd ((k : ℝ) / 65536) - (k : ℝ) / 65536| ≤ 1 / 256)
    (s : State ES) (i : Int) (hi : 0 ≤ i) (hi2 : i < 65536) :
    |(setGamma (fun k : Int => rnd (((k : ℝ) / 65536) ^ rnd (1 / 1))) s).gamma i
      - i >>> (8 : Nat)| ≤ 1 := by
  have hin : 0 ≤ i ∧ i < 65536 := ⟨hi, hi2⟩
  simp only [setGamma, hin, and_self, if_true, div_one, hone, Real.rpow_one]
  exact gammaEntry_near hi hi2 (hacc i hi hi2)

/-- Witness for C11: the exact power (`rnd = id`) at level `1000`. -/
theorem setGamma_one_near_identity_witness :
    (0 : Int) ≤ 1000 ∧ (1000 : Int) < 65536 ∧
    |(setGamma (fun k : Int => ((k : ℝ) / 65536) ^ ((1 : ℝ) / 1)) fresh).gamma 1000
      - (1000 : Int) >>> (8 : Nat)| ≤ 1 :=
  ⟨by decide, by decide,
   setGamma_one_near_identity (fun x : ℝ => x) rfl
     (fun k _ _ => by simp) fresh 1000 (by decide) (by decide)⟩

/-! ## A whole `doRender` pass -/

theorem usub_of_le {a b : Nat} (hba : b ≤ a) (ha : a < 4294967296) : usub a b = a - b := by
  unfold usub
  have hb : b % 4294967296 = b := Nat.mod_eq_of_lt (by omega)
  rw [hb]
  omega

theorem renderCols_pix {ES D : Type} (X : ExposureStack ES D) (s : State ES) (row y : Nat) :
    ∀ (n col x : Nat) (img : QImage) (cx cy : Nat),
      (renderCols X s row y n col x img).pix cx cy =
        if cy = y ∧ x ≤ cx ∧ cx < x + n then some (renderPixel X s (col + (cx - x)) row)
        else img.pix cx cy := by
  intro n
  induction n with
  | zero =>
    intro col x img cx cy
    have : ¬ (cy = y ∧ x ≤ cx ∧ cx < x + 0) := by omega
    simp only [renderCols, this, if_false]
  | succ n ih =>
    intro col x img cx cy
    simp only [renderCols]
    rw [ih]
    by_cases hy : cy = y
    · by_cases hx : cx = x
      · subst hx
        subst hy
        have h1 : ¬ (cy = cy ∧ cx + 1 ≤ cx ∧ cx < cx + 1 + n) := by omega
        have h2 : cy = cy ∧ cx ≤ cx ∧ cx < cx + (n + 1) := by omega
        simp [h1, h2, QImage.setPixel]
      · by_cases hin : x + 1 ≤ cx ∧ cx < x + 1 + n
        · have h1 : cy = y ∧ x + 1 ≤ cx ∧ cx < x + 1 + n := ⟨hy, hin⟩
          have h2 : cy = y ∧ x ≤ cx ∧ cx < x + (n + 1) := by omega
          have h3 : col + 1 + (cx - (x + 1)) = col + (cx - x) := by omega
          simp only [h1, h2, and_self, if_true, h3]
        · have h1 : ¬ (cy = y ∧ x + 1 ≤ cx ∧ cx < x + 1 + n) := by tauto
          have h2 : ¬ (cy = y ∧ x ≤ cx ∧ cx < x + (n + 1)) := by omega
          simp [h1, h2, QImage.setPixel, hx]
    · have h1 : ¬ (cy = y ∧ x + 1 ≤ cx ∧ cx < x + 1 + n) := by tauto
      have h2 : ¬ (cy = y ∧ x ≤ cx ∧ cx < x + (n + 1)) := by tauto
      simp [h1, h2, QImage.setPixel, hy]

theorem renderRow_pix {ES D : Type} (X : ExposureStack ES D) (s : State ES)
    (minx miny maxx row : Nat) (img : QImage) (cx cy : Nat) :
    (renderRow X s minx miny maxx row img).pix cx cy =
      if cy = usub row miny ∧ cx < maxx - minx then some (renderPixel X s (minx + cx) row)
      else img.pix cx cy := by
  unfold renderRow
  rw [renderCols_pix]
  by_cases h : cy = usub row miny ∧ cx < maxx - minx
  · have h1 : cy = usub row miny ∧ 0 ≤ cx ∧ cx < 0 + (maxx - minx) := by omega
    simp [h, h1]
  · have h1 : ¬ (cy = usub row miny ∧ 0 ≤ cx ∧ cx < 0 + (maxx - minx)) := by omega
    simp only [h, h1, if_false]

theorem doRenderStep_stop {ES D : Type} (X : ExposureStack ES D) (s : State ES)
    (minx miny maxx maxy row : Nat) (img : QImage)
    (h : row = maxy ∨ s.restart = true ∨ s.abort = true) :
    doRenderStep X s minx miny maxx maxy row img = none := by
  unfold doRenderStep
  rcases h with h | h | h
  · subst h
    simp
  · simp [h]
  · simp [h]

theorem doRenderStep_go {ES D : Type} (X : ExposureStack ES D) (s : State ES)
    (minx miny maxx maxy row : Nat) (img : QImage)
    (hrow : row < maxy) (hr : s.restart = false) (ha : s.abort = false) :
    doRenderStep X s minx miny maxx maxy row img = some (renderRow X s minx miny maxx row img) := by
  unfold doRenderStep
  simp [hr, ha, hrow]

theorem doRenderRows_pix {ES D : Type} (X : ExposureStack ES D) (sAt : Nat → State ES)
    (minx miny maxx maxy stop : Nat) (hmax : maxy < 4294967296) (hstop : stop ≤ maxy)
    (hend : stop = maxy ∨ (sAt stop).restart = true ∨ (sAt stop).abort = true) :
    ∀ (n row : Nat) (img : QImage), miny ≤ row → row ≤ stop → stop - row ≤ n →
      (∀ r, row ≤ r → r < stop → (sAt r).restart = false ∧ (sAt r).abort = false) →
      ∀ cx cy, (doRenderRows X sAt minx miny maxx maxy n row img).pix cx cy =
        if cx < maxx - minx ∧ row ≤ miny + cy ∧ miny + cy < stop then
          some (renderPixel X (sAt (miny + cy)) (minx + cx) (miny + cy))
        else img.pix cx cy := by
  intro n
  induction n with
  | zero =>
    intro row img _ h2 h3 _ cx cy
    have : ¬ (cx < maxx - minx ∧ row ≤ miny + cy ∧ miny + cy < stop) := by omega
    simp only [doRenderRows, this, if_false]
  | succ n ih =>
    intro row img h1 h2 h3 hclear cx cy
    by_cases hrs : row = stop
    · have hnone : doRenderStep X (sAt row) minx miny maxx maxy row img = none := by
        apply doRenderStep_stop
        rw [hrs]
        exact hend
      have : ¬ (cx < maxx - minx ∧ row ≤ miny + cy ∧ miny + cy < stop) := by omega
      simp only [doRenderRows, hnone, this, if_false]
    · have hlt : row < stop := by omega
      obtain ⟨hr, ha⟩ := hclear row (le_refl row) hlt
      have hgo := doRenderStep_go X (sAt row) minx miny maxx maxy row img (by omega) hr ha
      have hmod : (row + 1) % 4294967296 = row + 1 := Nat.mod_eq_of_lt (by omega)
      simp only [doRenderRows, hgo, hmod]
      rw [ih (row + 1) _ (by omega) (by omega) (by omega)
        (fun r hr1 hr2 => hclear r (by omega) hr2), renderRow_pix,
        usub_of_le h1 (by omega)]
      by_cases hc : cx < maxx - minx
      · by_cases hcy : miny + cy = row
        · have e1 : ¬ (cx < maxx - minx ∧ row + 1 ≤ miny + cy ∧ miny + cy < stop) := by omega
          have e2 : cy = row - miny ∧ cx < maxx - minx := by omega
          have e3 : cx < maxx - minx ∧ row ≤ miny + cy ∧ miny + cy < stop := by omega
          rw [if_neg e1, if_pos e2, if_pos e3, hcy]
        · by_cases hin : row + 1 ≤ miny + cy ∧ miny + cy < stop
          · have e1 : cx < maxx - minx ∧ row + 1 ≤ miny + cy ∧ miny + cy < stop := ⟨hc, hin⟩
            have e3 : cx < maxx - minx ∧ row ≤ miny + cy ∧ miny + cy < stop := by omega
            rw [if_pos e1, if_pos e3]
          · have e1 : ¬ (cx < maxx - minx ∧ row + 1 ≤ miny + cy ∧ miny + cy < stop) := by
              tauto
            have e2 : ¬ (cy = row - miny ∧ cx < maxx - minx) := by omega
            have e3 : ¬ (cx < maxx - minx ∧ row ≤ miny + cy ∧ miny + cy < stop) := by omega
            rw [if_neg e1, if_neg e2, if_neg e3]
      · have e1 : ¬ (cx < maxx - minx ∧ row + 1 ≤ miny + cy ∧ miny + cy < stop) := by tauto
        have e2 : ¬ (cy = row - miny ∧ cx < maxx - minx) := by tauto
        have e3 : ¬ (cx < maxx - minx ∧ row ≤ miny + cy ∧ miny + cy < stop) := by tauto
        rw [if_neg e1, if_neg e2, if_neg e3]

theorem doRenderRows_fuel {ES D : Type} (X : ExposureStack ES D) (sAt : Nat → State ES)
    (minx miny maxx maxy : Nat) (hmax : maxy < 4294967296) :
    ∀ (n row : Nat) (img : QImage), row ≤ maxy → maxy - row ≤ n →
      doRenderRows X sAt minx miny maxx maxy n row img =
        doRenderRows X sAt minx miny maxx maxy (maxy - row) row img := by
  intro n
  induction n with
  | zero =>
    intro row img _ h2
    have : maxy - row = 0 := by omega
    rw [this]
  | succ n ih =>
    intro row img h1 h2
    by_cases hrow : row = maxy
    · have h0 : maxy - row = 0 := by omega
      rw [h0]
      simp only [doRenderRows, doRenderStep_stop X (sAt row) minx miny maxx maxy row img
        (Or.inl hrow)]
    · have hsucc : maxy - row = (maxy - (row + 1)) + 1 := by omega
      have hmod : (row + 1) % 4294967296 = row + 1 := Nat.mod_eq_of_lt (by omega)
      rw [hsucc]
      simp only [doRenderRows, hmod]
      cases doRenderStep X (sAt row) minx miny maxx maxy row img with
      | none => rfl
      | some img1 => exact ih (row + 1) img1 (by omega) (by omega)

/-- C12: a `doRender` pass over the region `[minx,maxx) x [miny,maxy)` during which
neither `restart` nor `abort` is observed writes, for every row and column of the
region, the buffer pixel at `(col - minx, row - miny)` with
`qRgb(gamma[r], gamma[g], gamma[b])`, where `r`, `g`, `b` are the truncated channels
of `rgb(col, row)`; when these lie in `[0, 65536)` every table index does; and every
other buffer pixel keeps what it held. -/
theorem doRender_complete_pass {ES D : Type} (X : ExposureStack ES D)
    (sAt : Nat → State ES) (minx miny maxx maxy : Nat) (img : QImage)
    (hmax : maxy < 4294967296)
    (hclear : ∀ r, miny ≤ r → r < maxy → (sAt r).restart = false ∧ (sAt r).abort = false)
    (hrange : ∀ r col, miny ≤ r → r < maxy → minx ≤ col → col < maxx →
      InTable (truncInt (X.rgb (sAt r).images col r).1) ∧
      InTable (truncInt (X.rgb (sAt r).images col r).2.1) ∧
      InTable (truncInt (X.rgb (sAt r).images col r).2.2)) :
    (∀ row col, miny ≤ row → row < maxy → minx ≤ col → col < maxx →
      (doRender X sAt minx miny maxx maxy img).pix (col - minx) (row - miny) =
        some (qRgb ((sAt row).gamma (truncInt (X.rgb (sAt row).images col row).1))
          ((sAt row).gamma (truncInt (X.rgb (sAt row).images col row).2.1))
          ((sAt row).gamma (truncInt (X.rgb (sAt row).images col row).2.2))) ∧
      InTable (truncInt (X.rgb (sAt row).images col row).1) ∧
      InTable (truncInt (X.rgb (sAt row).images col row).2.1) ∧
      InTable (truncInt (X.rgb (sAt row).images col row).2.2)) ∧
    (∀ cx cy, ¬ (cx < maxx - minx ∧ cy < maxy - miny) →
      (doRender X sAt minx miny maxx maxy img).pix cx cy = img.pix cx cy) := by
  have key := doRenderRows_pix X sAt minx miny maxx maxy maxy hmax (le_refl maxy) (Or.inl rfl)
  constructor
  · intro row col h1 h2 h3 h4
    refine ⟨?_, hrange row col h1 h2 h3 h4⟩
    unfold doRender
    rw [key (maxy - miny) miny img (le_refl miny) (by omega) (le_refl _) hclear]
    have hc : col - minx < maxx - minx ∧ miny ≤ miny + (row - miny) ∧
        miny + (row - miny) < maxy := by omega
    have e1 : miny + (row - miny) = row := by omega
    have e2 : minx + (col - minx) = col := by omega
    rw [if_pos hc, e1, e2]
    rfl
  · intro cx cy hout
    unfold doRender
    by_cases hle : miny ≤ maxy
    · rw [key (maxy - miny) miny img (le_refl miny) hle (le_refl _) hclear]
      have hc : ¬ (cx < maxx - minx ∧ miny ≤ miny + cy ∧ miny + cy < maxy) := by omega
      rw [if_neg hc]
    · have h0 : maxy - miny = 0 := by omega
      rw [h0]
      rfl

theorem blank_inTable (W H : Int) (es : Unit) (col r : Nat) :
    InTable (truncInt ((blank W H).rgb es col r).1) ∧
    InTable (truncInt ((blank W H).rgb es col r).2.1) ∧
    InTable (truncInt ((blank W H).rgb es col r).2.2) := by
  simp [InTable, truncInt, blank]

/-- Witness for C12: an undisturbed pass over the whole of a 2 by 2 image into a 4 by 4
buffer writes pixel `(1, 1)` and leaves pixel `(3, 3)` alone. -/
theorem doRender_complete_pass_witness :
    (2 : Nat) < 4294967296 ∧
    ((doRender (blank 2 2) (fun _ => fresh) 0 0 2 2 canvas).pix (1 - 0) (1 - 0) =
        some (qRgb (fresh.gamma (truncInt ((blank 2 2).rgb fresh.images 1 1).1))
          (fresh.gamma (truncInt ((blank 2 2).rgb fresh.images 1 1).2.1))
          (fresh.gamma (truncInt ((blank 2 2).rgb fresh.images 1 1).2.2))) ∧
      InTable (truncInt ((blank 2 2).rgb fresh.images 1 1).1) ∧
      InTable (truncInt ((blank 2 2).rgb fresh.images 1 1).2.1) ∧
      InTable (truncInt ((blank 2 2).rgb fresh.images 1 1).2.2)) ∧
    (doRender (blank 2 2) (fun _ => fresh) 0 0 2 2 canvas).pix 3 3 = canvas.pix 3 3 :=
  ⟨by decide,
   (doRender_complete_pass (blank 2 2) (fun _ => fresh) 0 0 2 2 canvas (by decide)
      (fun _ _ _ => ⟨rfl, rfl⟩) (fun r col _ _ _ _ => blank_inTable 2 2 () col r)).1
      1 1 (by decide) (by decide) (by decide) (by decide),
   (doRender_complete_pass (blank 2 2) (fun _ => fresh) 0 0 2 2 canvas (by decide)
      (fun _ _ _ => ⟨rfl, rfl⟩) (fun r col _ _ _ _ => blank_inTable 2 2 () col r)).2
      3 3 (by decide)⟩

/-- C16: cancellation in `doRender` has row granularity.  With the flags sampled once
before each row, let `k` be the first row of `[miny, maxy)` before which `restart` or
`abort` is seen.  Then every pixel of the rows `miny .. k-1` is written, and no pixel
of a row `≥ k` (nor any pixel outside the region's columns) is touched.  In particular
a flag already set on entry (`k = miny`) leaves the buffer entirely unchanged, and a
flag raised after the sample for row `k-1` does not stop row `k-1`. -/
theorem doRender_row_granularity {ES D : Type} (X : ExposureStack ES D)
    (sAt : Nat → State ES) (minx miny maxx maxy : Nat) (img : QImage)
    (hmax : maxy < 4294967296) (k : Nat) (hk1 : miny ≤ k) (hk2 : k < maxy)
    (hclear : ∀ r, miny ≤ r → r < k → (sAt r).restart = false ∧ (sAt r).abort = false)
    (hset : (sAt k).restart = true ∨ (sAt k).abort = true) :
    (∀ row col, miny ≤ row → row < k → minx ≤ col → col < maxx →
      (doRender X sAt minx miny maxx maxy img).pix (col - minx) (row - miny) =
        some (renderPixel X (sAt row) col row)) ∧
    (∀ cx cy, k - miny ≤ cy →
      (doRender X sAt minx miny maxx maxy img).pix cx cy = img.pix cx cy) ∧
    (∀ cx cy, maxx - minx ≤ cx →
      (doRender X sAt minx miny maxx maxy img).pix cx cy = img.pix cx cy) ∧
    (k = miny → ∀ cx cy,
      (doRender X sAt minx miny maxx maxy img).pix cx cy = img.pix cx cy) := by
  have key := doRenderRows_pix X sAt minx miny maxx maxy k hmax (le_of_lt hk2) (Or.inr hset)
    (maxy - miny) miny img (le_refl miny) hk1 (by omega)
    (fun r h1 h2 => hclear r h1 h2)
  refine ⟨?_, ?_, ?_, ?_⟩
  · intro row col h1 h2 h3 h4
    unfold doRender
    rw [key]
    have hc : col - minx < maxx - minx ∧ miny ≤ miny + (row - miny) ∧
        miny + (row - miny) < k := by omega
    have e1 : miny + (row - miny) = row := by omega
    have e2 : minx + (col - minx) = col := by omega
    rw [if_pos hc, e1, e2]
  · intro cx cy hcy
    unfold doRender
    rw [key]
    have hc : ¬ (cx < maxx - minx ∧ miny ≤ miny + cy ∧ miny + cy < k) := by omega
    rw [if_neg hc]
  · intro cx cy hcx
    unfold doRender
    rw [key]
    have hc : ¬ (cx < maxx - minx ∧ miny ≤ miny + cy ∧ miny + cy < k) := by omega
    rw [if_neg hc]
  · intro hk cx cy
    unfold doRender
    rw [key]
    have hc : ¬ (cx < maxx - minx ∧ miny ≤ miny + cy ∧ miny + cy < k) := by omega
    rw [if_neg hc]

/-- Witness for C16: on a 2 by 2 image `restart` is raised while row 0 is rendered;
row 0 is written in full and row 1 is not touched. -/
theorem doRender_row_granularity_witness :
    (2 : Nat) < 4294967296 ∧ (0 : Nat) ≤ 1 ∧ (1 : Nat) < 2 ∧
    ((restartDuringRow0 1).restart = true ∨ (restartDuringRow0 1).abort = true) ∧
    (doRender (blank 2 2) restartDuringRow0 0 0 2 2 canvas).pix (1 - 0) (0 - 0) =
      some (renderPixel (blank 2 2) (restartDuringRow0 0) 1 0) ∧
    (doRender (blank 2 2) restartDuringRow0 0 0 2 2 canvas).pix 0 1 = canvas.pix 0 1 :=
  ⟨by decide, by decide, by decide, Or.inl rfl,
   (doRender_row_granularity (blank 2 2) restartDuringRow0 0 0 2 2 canvas (by decide) 1
      (by decide) (by decide)
      (fun r _ h2 => by
        have hr : r = 0 := by omega
        subst hr
        exact ⟨rfl, rfl⟩)
      (Or.inl rfl)).1 0 1 (by decide) (by decide) (by decide) (by decide),
   (doRender_row_granularity (blank 2 2) restartDuringRow0 0 0 2 2 canvas (by decide) 1
      (by decide) (by decide)
      (fun r _ h2 => by
        have hr : r = 0 := by omega
        subst hr
        exact ⟨rfl, rfl⟩)
      (Or.inl rfl)).2.1 0 1 (by decide)⟩

/-! ## Publishing the preview frame -/

/-- C13, as stated, fails for a zero-area region with `_maxy > 0`: after
`setImageViewport(0, 1, 0, 0, 1)` the working region is `(0, 1, 0, 1)`, the restart
flag is false at line 110, and the loop publishes a preview frame at offset `(0, 1)`
with a buffer of 0 by 0 pixels. -/
theorem preview_published_for_empty_region :
    (exec (blank 2 2) (start () (fun _ => 0)) emptyRegionSchedule).pc = PC.afterPreview ∧
    ((exec (blank 2 2) (start () (fun _ => 0)) emptyRegionSchedule)._minx,
      (exec (blank 2 2) (start () (fun _ => 0)) emptyRegionSchedule)._miny,
      (exec (blank 2 2) (start () (fun _ => 0)) emptyRegionSchedule)._maxx,
      (exec (blank 2 2) (start () (fun _ => 0)) emptyRegionSchedule)._maxy) = (0, 1, 0, 1) ∧
    (exec (blank 2 2) (start () (fun _ => 0)) emptyRegionSchedule).st.restart = false ∧
    (exec (blank 2 2) (start () (fun _ => 0)) emptyRegionSchedule).out.length = 0 ∧
    (exec (blank 2 2) (start () (fun _ => 0)) (emptyRegionSchedule ++ [Event.thread])).out.map
      (fun f => (f.x, f.y, f.image.width, f.image.height)) = [(0, 1, 0, 0)] := by
  decide

/-- C13, amended: at line 110 the preview frame is published exactly when the restart
flag is false and `_maxy > 0`; the frame is `(_minx, _miny, width, height, a)`.  A
region with `_maxy = 0` is never published; a zero-area region with `_maxy > 0` is. -/
theorem preview_published_iff {ES D : Type} (X : ExposureStack ES D) (c : Config ES)
    (hpc : c.pc = PC.afterPreview) :
    ((c.st.restart = false ∧ 0 < c._maxy) →
      (threadStep X c).out =
        c.out ++ [{ x := c._minx, y := c._miny, width := X.getWidth c.st.images,
                    height := X.getHeight c.st.images, image := c.a }]) ∧
    (¬ (c.st.restart = false ∧ 0 < c._maxy) → (threadStep X c).out = c.out) := by
  unfold threadStep
  simp only [hpc]
  constructor
  · intro h
    simp only [h, and_self, if_true]
  · intro h
    simp only [h, if_false]

/-- Witness for C13 (amended): the zero-area region `(0, 1, 0, 1)` is published, and
the initial region `(0, 0, 0, 0)` is not. -/
theorem preview_published_iff_witness :
    (exec (blank 2 2) (start () (fun _ => 0)) emptyRegionSchedule).pc = PC.afterPreview ∧
    ((exec (blank 2 2) (start () (fun _ => 0)) emptyRegionSchedule).st.restart = false ∧
      0 < (exec (blank 2 2) (start () (fun _ => 0)) emptyRegionSchedule)._maxy) ∧
    (threadStep (blank 2 2) (exec (blank 2 2) (start () (fun _ => 0)) emptyRegionSchedule)).out =
      (exec (blank 2 2) (start () (fun _ => 0)) emptyRegionSchedule).out ++
        [{ x := (exec (blank 2 2) (start () (fun _ => 0)) emptyRegionSchedule)._minx,
           y := (exec (blank 2 2) (start () (fun _ => 0)) emptyRegionSchedule)._miny,
           width := (blank 2 2).getWidth
             (exec (blank 2 2) (start () (fun _ => 0)) emptyRegionSchedule).st.images,
           height := (blank 2 2).getHeight
             (exec (blank 2 2) (start () (fun _ => 0)) emptyRegionSchedule).st.images,
           image := (exec (blank 2 2) (start () (fun _ => 0)) emptyRegionSchedule).a }] :=
  ⟨by decide, by decide,
   (preview_published_iff (blank 2 2)
      (exec (blank 2 2) (start () (fun _ => 0)) emptyRegionSchedule) (by decide)).1
      (by decide)⟩

/-! ## Entering the wait -/

/-- C14 fails when `abort` cuts the full-image pass short: after `abortBeforeFull` the
loop is at line 117 with `abort` true, `restart` false and a full-image buffer in which
no row was written (the pass returned at line 84 before row 0); the next step
publishes that buffer and enters `condition.wait`. -/
theorem wait_entered_after_aborted_pass :
    (exec (blank 2 2) (start () (fun _ => 0)) abortBeforeFull).pc = PC.afterFull ∧
    (exec (blank 2 2) (start () (fun _ => 0)) abortBeforeFull).st.abort = true ∧
    (exec (blank 2 2) (start () (fun _ => 0)) abortBeforeFull).st.restart = false ∧
    ((exec (blank 2 2) (start () (fun _ => 0)) abortBeforeFull).b.width,
      (exec (blank 2 2) (start () (fun _ => 0)) abortBeforeFull).b.height) = (2, 2) ∧
    [((exec (blank 2 2) (start () (fun _ => 0)) abortBeforeFull).b.pix 0 0).isSome,
     ((exec (blank 2 2) (start () (fun _ => 0)) abortBeforeFull).b.pix 1 0).isSome,
     ((exec (blank 2 2) (start () (fun _ => 0)) abortBeforeFull).b.pix 0 1).isSome,
     ((exec (blank 2 2) (start () (fun _ => 0)) abortBeforeFull).b.pix 1 1).isSome]
      = [false, false, false, false] ∧
    (exec (blank 2 2) (start () (fun _ => 0)) (abortBeforeFull ++ [Event.thread])).pc
      = PC.waiting := by
  decide

/-- While `abort` is false the wait is entered only after a full-image pass that wrote
every row of the image. -/
theorem wait_after_complete_pass_unless_abort {ES D : Type} (X : ExposureStack ES D)
    (hX : FixedSize X) (es : ES) (tbl : Int → Int) (evs : List (Event D)) (c : Config ES)
    (hc : c = exec X (start es tbl) evs) (hpc : c.pc = PC.afterFull)
    (hw : (threadStep X c).pc = PC.waiting) (ha : c.st.abort = false) :
    RowsDone c.b 0 0 (toUInt (X.getWidth c.st.images)) (toUInt (X.getHeight c.st.images)) := by
  have hinv : PassInv X c := by
    subst hc
    exact passInv_exec X hX evs _ ⟨by simp [start], by simp [start]⟩
  obtain ⟨_, hinv⟩ := hinv
  simp only [hpc] at hinv
  apply hinv _ ha
  by_contra hr
  unfold threadStep at hw
  simp only [hpc, hr, if_false, snapshot] at hw
  cases hw

/-! ## The end of an iteration -/

/-- C15: at the end of every loop iteration (lines 123-129, reached from line 118
with `restart` set or after the wake-up) the restart flag is false, the working region
`(_minx, _miny, _maxx, _maxy)` is the stored rectangle converted to `unsigned int`
(equal to it whenever the stored values are non-negative), the stored rectangle and
scale are kept, and the collaborator has been given `setScale(scale)`; unless `abort`
is set, the next step starts the preview pass on exactly that region.  When the stored
rectangle is the one written by `setImageViewport(x, y, w, h, newScale)`, with any
`newScale`, that region is `(x, y, x + w, y + h)`. -/
theorem snapshot_takes_stored_viewport {ES D : Type} (X : ExposureStack ES D)
    (c : Config ES)
    (hpc : c.pc = PC.woken ∨ (c.pc = PC.afterFull ∧ c.st.restart = true)) :
    (threadStep X c).st.restart = false ∧
    (threadStep X c).pc = PC.top ∧
    (threadStep X c).st.images = X.setScale c.st.images c.st.scale ∧
    ((threadStep X c).st.minx = c.st.minx ∧ (threadStep X c).st.miny = c.st.miny ∧
      (threadStep X c).st.maxx = c.st.maxx ∧ (threadStep X c).st.maxy = c.st.maxy ∧
      (threadStep X c).st.scale = c.st.scale) ∧
    ((threadStep X c)._minx = toUInt c.st.minx ∧ (threadStep X c)._miny = toUInt c.st.miny ∧
      (threadStep X c)._maxx = toUInt c.st.maxx ∧ (threadStep X c)._maxy = toUInt c.st.maxy) ∧
    ((0 ≤ c.st.minx ∧ 0 ≤ c.st.miny ∧ 0 ≤ c.st.maxx ∧ 0 ≤ c.st.maxy ∧
        IsInt c.st.minx ∧ IsInt c.st.miny ∧ IsInt c.st.maxx ∧ IsInt c.st.maxy) →
      ((threadStep X c)._minx : Int) = (threadStep X c).st.minx ∧
      ((threadStep X c)._miny : Int) = (threadStep X c).st.miny ∧
      ((threadStep X c)._maxx : Int) = (threadStep X c).st.maxx ∧
      ((threadStep X c)._maxy : Int) = (threadStep X c).st.maxy) ∧
    (c.st.abort = false →
      (threadStep X (threadStep X c)).pc =
        PC.render Pass.preview (toUInt c.st.minx) (toUInt c.st.miny) (toUInt c.st.maxx)
          (toUInt c.st.maxy) (toUInt c.st.miny)) ∧
    (∀ (s0 : State ES) (x y w h newScale : Int),
      c.st = (setImageViewport x y w h newScale s0).state →
      0 ≤ x → 0 ≤ y → 0 ≤ x + w → 0 ≤ y + h → IsInt x → IsInt y → IsInt (x + w) →
      IsInt (y + h) →
      ((threadStep X c)._minx : Int) = x ∧ ((threadStep X c)._miny : Int) = y ∧
      ((threadStep X c)._maxx : Int) = x + w ∧ ((threadStep X c)._maxy : Int) = y + h) := by
  have hstep : threadStep X c = snapshot X c := by
    unfold threadStep
    rcases hpc with h | ⟨h, hr⟩
    · simp only [h]
    · simp only [h, hr, Bool.true_eq_false, if_false]
  rw [hstep]
  refine ⟨rfl, rfl, rfl, ⟨rfl, rfl, rfl, rfl, rfl⟩, ⟨rfl, rfl, rfl, rfl⟩, ?_, ?_, ?_⟩
  · rintro ⟨h1, h2, h3, h4, i1, i2, i3, i4⟩
    unfold IsInt at i1 i2 i3 i4
    simp only [snapshot]
    exact ⟨toUInt_of_nonneg h1 (by omega), toUInt_of_nonneg h2 (by omega),
      toUInt_of_nonneg h3 (by omega), toUInt_of_nonneg h4 (by omega)⟩
  · intro ha
    unfold threadStep
    simp [snapshot, ha]
  · intro s0 x y w h newScale hst h1 h2 h3 h4 i1 i2 i3 i4
    have e1 : c.st.minx = x := by rw [hst]; rfl
    have e2 : c.st.miny = y := by rw [hst]; rfl
    have e3 : c.st.maxx = x + w := by
      rw [hst]
      exact wrapInt_of_isInt i3
    have e4 : c.st.maxy = y + h := by
      rw [hst]
      exact wrapInt_of_isInt i4
    unfold IsInt at i1 i2 i3 i4
    simp only [snapshot, e1, e2, e3, e4]
    exact ⟨toUInt_of_nonneg h1 (by omega), toUInt_of_nonneg h2 (by omega),
      toUInt_of_nonneg h3 (by omega), toUInt_of_nonneg h4 (by omega)⟩

/-- Witness for C15: the loop of `idle`, panned to `(1, 1)` with size 1 by 1 at the
unchanged scale `1` and then woken, takes the region `(1, 1, 2, 2)`. -/
theorem snapshot_takes_stored_viewport_witness :
    (pannedAwake.pc = PC.woken ∨
      (pannedAwake.pc = PC.afterFull ∧ pannedAwake.st.restart = true)) ∧
    pannedAwake.st = (setImageViewport 1 1 1 1 1 idle.st).state ∧
    idle.st.scale = 1 ∧
    (threadStep (blank 2 2) pannedAwake).st.restart = false ∧
    (((threadStep (blank 2 2) pannedAwake)._minx : Int) = 1 ∧
      ((threadStep (blank 2 2) pannedAwake)._miny : Int) = 1 ∧
      ((threadStep (blank 2 2) pannedAwake)._maxx : Int) = 1 + 1 ∧
      ((threadStep (blank 2 2) pannedAwake)._maxy : Int) = 1 + 1) :=
  ⟨Or.inl (by decide), rfl, by decide,
   (snapshot_takes_stored_viewport (blank 2 2) pannedAwake (Or.inl (by decide))).1,
   (snapshot_takes_stored_viewport (blank 2 2) pannedAwake (Or.inl (by decide))).2.2.2.2.2.2.2
     idle.st 1 1 1 1 1 rfl (by decide) (by decide) (by decide) (by decide) (by decide)
     (by decide) (by decide) (by decide)⟩

/-! ## `setGamma` and the other fields -/

/-- C17: `setGamma(g)` changes only the gamma table: the restart flag, the abort flag,
the stored rectangle, the stored scale and the collaborator are as before, and the call
does not signal the wake condition, so the render thread's control point, locals,
buffers and published frames are untouched (a blocked loop stays blocked, a pass in
flight goes on). -/
theorem setGamma_frame {ES D α : Type} [LinearOrderedField α] [FloorRing α]
    (X : ExposureStack ES D) (pw : Int → α) (s : State ES) (pwq : Int → ℚ)
    (c : Config ES) :
    ((setGamma pw s).restart = s.restart ∧ (setGamma pw s).abort = s.abort ∧
      (setGamma pw s).minx = s.minx ∧ (setGamma pw s).miny = s.miny ∧
      (setGamma pw s).maxx = s.maxx ∧ (setGamma pw s).maxy = s.maxy ∧
      (setGamma pw s).scale = s.scale ∧ (setGamma pw s).images = s.images) ∧
    ((step X c (Event.setGamma pwq)).st = setGamma pwq c.st ∧
      (step X c (Event.setGamma pwq)).pc = c.pc ∧
      (step X c (Event.setGamma pwq)).out = c.out ∧
      (step X c (Event.setGamma pwq))._minx = c._minx ∧
      (step X c (Event.setGamma pwq))._miny = c._miny ∧
      (step X c (Event.setGamma pwq))._maxx = c._maxx ∧
      (step X c (Event.setGamma pwq))._maxy = c._maxy ∧
      (step X c (Event.setGamma pwq)).a = c.a ∧
      (step X c (Event.setGamma pwq)).b = c.b) :=
  ⟨⟨rfl, rfl, rfl, rfl, rfl, rfl, rfl, rfl⟩, ⟨rfl, rfl, rfl, rfl, rfl, rfl, rfl, rfl, rfl⟩⟩

/-! ## The threshold passed to the collaborator -/

theorem threshold16_eq {th : Int} (h0 : 0 ≤ th) (h1 : th ≤ 255) :
    threshold16 th = 256 * th + 255 := by
  unfold threshold16
  rw [wrapInt_of_isInt (z := th + 1) (by unfold IsInt; omega),
    wrapInt_of_isInt (z := (th + 1) * 256) (by unfold IsInt; omega),
    wrapInt_of_isInt (z := (th + 1) * 256 - 1) (by unfold IsInt; omega)]
  omega

/-- C18: `setExposureThreshold(i, th)` passes the collaborator the threshold
`((th + 1) << 8) - 1` for exposure `i`; for `0 ≤ th ≤ 255` this is `256 * th + 255`,
lies in `[255, 65535]`, is strictly increasing in `th`, and its upper 8 bits give back
`th`; the 8-bit threshold `255` maps to `65535`. -/
theorem setExposureThreshold_threshold {ES D : Type} (X : ExposureStack ES D)
    (s : State ES) (i th : Int) (h0 : 0 ≤ th) (h1 : th ≤ 255) :
    (setExposureThreshold X i th s).state.images = X.setThreshold s.images i (threshold16 th) ∧
    threshold16 th = 256 * th + 255 ∧
    255 ≤ threshold16 th ∧ threshold16 th ≤ 65535 ∧
    threshold16 th >>> (8 : Nat) = th ∧
    (∀ th2 : Int, 0 ≤ th2 → th2 ≤ 255 → th < th2 → threshold16 th < threshold16 th2) ∧
    threshold16 255 = 65535 := by
  have e := threshold16_eq h0 h1
  refine ⟨rfl, e, by omega, by omega, ?_, ?_, by decide⟩
  · rw [e, Int.shiftRight_eq_div_pow]
    norm_num
    omega
  · intro th2 g0 g1 hlt
    rw [e, threshold16_eq g0 g1]
    omega

/-- Witness for C18: the thresholds `0` and `255`. -/
theorem setExposureThreshold_threshold_witness :
    (0 : Int) ≤ 0 ∧ (0 : Int) ≤ 255 ∧
    (threshold16 0 = 256 * 0 + 255 ∧ threshold16 0 >>> (8 : Nat) = 0) ∧
    (threshold16 255 = 256 * 255 + 255 ∧ threshold16 255 >>> (8 : Nat) = 255) ∧
    threshold16 0 < threshold16 255 :=
  ⟨by decide, by decide,
   ⟨(setExposureThreshold_threshold (blank 2 2) fresh 0 0 (by decide) (by decide)).2.1,
    (setExposureThreshold_threshold (blank 2 2) fresh 0 0 (by decide) (by decide)).2.2.2.2.1⟩,
   ⟨(setExposureThreshold_threshold (blank 2 2) fresh 0 255 (by decide) (by decide)).2.1,
    (setExposureThreshold_threshold (blank 2 2) fresh 0 255 (by decide)
      (by decide)).2.2.2.2.1⟩,
   (setExposureThreshold_threshold (blank 2 2) fresh 0 0 (by decide) (by decide)).2.2.2.2.2.1
     255 (by decide) (by decide) (by decide)⟩

/-! ## The white-balance rectangle and the requested pixel -/

theorem wbRect_contains_of_margin (W H x y radius : Int)
    (hW : W < 2147483648) (hH : H < 2147483648)
    (hx0 : 0 ≤ x) (hy0 : 0 ≤ y) (hr : 1 ≤ radius) (hr2 : 2 * radius < 2147483648)
    (hmx : radius < W - x) (hmy : radius < H - y) :
    ((wbRect W H x y radius).1 ≤ x ∧
      x < (wbRect W H x y radius).1 + (wbRect W H x y radius).2.2.1) ∧
    ((wbRect W H x y radius).2.1 ≤ y ∧
      y < (wbRect W H x y radius).2.1 + (wbRect W H x y radius).2.2.2) := by
  have hw := wbExtent_eq_min hW hx0 (by omega) (by omega) hr2
  have hh := wbExtent_eq_min hH hy0 (by omega) (by omega) hr2
  have hox := wbOrigin_eq_max hx0 (by omega) (show 0 ≤ radius by omega)
  have hoy := wbOrigin_eq_max hy0 (by omega) (show 0 ≤ radius by omega)
  simp only [wbRect]
  rw [hw, hh, hox, hoy]
  omega

/-- C19 fails within `radius` of the right or bottom edge: on a 30 by 40 image
`calculateWB(29, 5, 5)` passes the rectangle `(24, 0, 1, 10)`, whose columns `[24, 25)`
do not contain `x = 29`, and `calculateWB(5, 39, 5)` passes `(0, 34, 10, 1)`, whose
rows `[34, 35)` do not contain `y = 39`: the extent is clamped with the coordinate as
it was before the origin is moved left or up by `radius`. -/
theorem calculateWB_rect_misses_pixel :
    wbRect 30 40 29 5 5 = (24, 0, 1, 10) ∧
    ¬ ((wbRect 30 40 29 5 5).1 ≤ 29 ∧
      (29 : Int) < (wbRect 30 40 29 5 5).1 + (wbRect 30 40 29 5 5).2.2.1) ∧
    wbRect 30 40 5 39 5 = (0, 34, 10, 1) ∧
    ¬ ((wbRect 30 40 5 39 5).2.1 ≤ 39 ∧
      (39 : Int) < (wbRect 30 40 5 39 5).2.1 + (wbRect 30 40 5 39 5).2.2.2) := by
  decide

end RenderThread
